import Mathlib

/-!
Verification of the camunda-schema-bundler normalization and deduplication
engine against its natural-language specification.

The development shallowly embeds the TypeScript sources:
- src/helpers.ts       : pointer decoding, reference resolution, canonical
                         serialization, the $like-ref validator counter and
                         the directory hashing entry point;
- src/bundle.ts        : the safeNormalize walk, promoteInlineSchemas,
                         the dereference pass loop, freshSignatureDedup and
                         the validation / statistics tail of bundle().

Documents are modeled as pure JSON trees.  JavaScript objects are ordered
association lists (insertion order preserved); numbers are modeled as
integers (no claim depends on float formatting).  In-place mutation is
modeled by path-indexed state passing; object identity based visited sets
become path based visited sets, which coincides with the JavaScript
behaviour as long as the incoming tree has no internal aliasing (the
bundler receives a freshly parsed tree).  The few spots where a JavaScript
walk can keep operating on a node that was detached from the tree by an
enclosing rewrite are modeled as early returns; such detached activity is
invisible in the resulting tree.
-/

set_option maxHeartbeats 2000000
set_option maxRecDepth 4000

/-- JSON-like values: the parsed form of the merged specification. -/
inductive Json where
  | null
  | bool (b : Bool)
  | num (n : Int)
  | str (s : String)
  | arr (xs : List Json)
  | obj (fs : List (String × Json))

namespace Json

/-- JavaScript truthiness of a value. -/
def truthy : Json → Bool
  | .null => false
  | .bool b => b
  | .num n => n != 0
  | .str s => s != ""
  | .arr _ => true
  | .obj _ => true

/-- A container in the JavaScript sense: typeof x === "object" and x not null. -/
def isContainer : Json → Bool
  | .arr _ => true
  | .obj _ => true
  | _ => false

end Json

/-- First-match association-list lookup (JavaScript objects have unique keys). -/
def alookup {α : Type} : List (String × α) → String → Option α
  | [], _ => none
  | (k, v) :: rest, key => if k = key then some v else alookup rest key

/-- Assignment obj[k] = v: replace the first binding of k in place, else append. -/
def aset {α : Type} : List (String × α) → String → α → List (String × α)
  | [], key, v => [(key, v)]
  | (k, w) :: rest, key, v =>
    if k = key then (k, v) :: rest else (k, w) :: aset rest key v

/-- Lexicographic comparison of character lists by code point, the
UTF-16ish default string comparison used by Array.prototype.sort. -/
def lexLe : List Char → List Char → Bool
  | [], _ => true
  | _ :: _, [] => false
  | a :: as, b :: bs =>
    if a.toNat < b.toNat then true
    else if b.toNat < a.toNat then false
    else lexLe as bs

/-- String comparison via the underlying character list. -/
def strLe (s t : String) : Bool := lexLe s.data t.data

/-- Does the character list start with the given pattern. -/
def charsStart : List Char → List Char → Bool
  | _, [] => true
  | [], _ :: _ => false
  | c :: cs, p :: ps => c = p && charsStart cs ps

/-- String.prototype.startsWith. -/
def strStarts (s pat : String) : Bool := charsStart s.data pat.data

/-- Does the character list end with the given pattern. -/
def charsEnd (cs pat : List Char) : Bool :=
  charsStart cs.reverse pat.reverse

/-- Anchored suffix test, used for the regular expressions of the source
that are all of the shape /...$/ on a literal. -/
def strEnds (s pat : String) : Bool := charsEnd s.data pat.data

/-- Does the string contain the given character. -/
def strHasChar (s : String) (c : Char) : Bool := s.data.contains c

/-- String.prototype.split on a single separator character, JavaScript
semantics: always at least one (possibly empty) field. -/
def splitChars (sep : Char) : List Char → List String
  | [] => [""]
  | c :: cs =>
    let rest := splitChars sep cs
    if c = sep then "" :: rest
    else
      match rest with
      | [] => [String.mk [c]]
      | r :: rs => String.mk (c :: r.data) :: rs

/-- Split a string into fields on the separator. -/
def strSplit (s : String) (sep : Char) : List String := splitChars sep s.data

/-- Drop the first n characters of a string (String.prototype.slice n). -/
def strDrop (s : String) (n : Nat) : String := String.mk (s.data.drop n)

/-! ## A model of decodeURIComponent

The ECMAScript Decode operation: each percent escape contributes one byte;
runs of escape bytes must form valid (strict) UTF-8, otherwise a URIError
is thrown.  Characters outside escapes pass through unchanged.  Failure is
modeled as none. -/

/-- Value of a hexadecimal digit. -/
def hexVal : Char → Option Nat
  | c =>
    let n := c.toNat
    if 48 ≤ n ∧ n ≤ 57 then some (n - 48)
    else if 65 ≤ n ∧ n ≤ 70 then some (n - 65 + 10)
    else if 97 ≤ n ∧ n ≤ 102 then some (n - 97 + 10)
    else none

/-- Byte value of a two-digit hexadecimal escape body. -/
def hexByte (h1 h2 : Char) : Option Nat :=
  match hexVal h1, hexVal h2 with
  | some a, some b => some (a * 16 + b)
  | _, _ => none

/-- Byte value of a continuation escape body, constrained to 0x80..0xBF. -/
def contByte (h1 h2 : Char) : Option Nat :=
  match hexByte h1 h2 with
  | some b => if 128 ≤ b ∧ b ≤ 191 then some b else none
  | none => none

/-- Decode the percent escapes of a character list as strict UTF-8,
returning none where decodeURIComponent would throw a URIError.  A leading
escape byte determines how many continuation escapes must follow
immediately; the code point is range-checked (no overlong forms, no
surrogates, maximum U+10FFFF). -/
def percentDecodeChars : List Char → Option (List Char)
  | [] => some []
  | '%' :: h1 :: h2 :: rest =>
    match hexByte h1 h2 with
    | none => none
    | some b =>
      if b < 128 then
        match percentDecodeChars rest with
        | some tail => some (Char.ofNat b :: tail)
        | none => none
      else if 194 ≤ b ∧ b ≤ 223 then
        match rest with
        | '%' :: h3 :: h4 :: rest2 =>
          match contByte h3 h4 with
          | some b2 =>
            match percentDecodeChars rest2 with
            | some tail => some (Char.ofNat ((b - 192) * 64 + (b2 - 128)) :: tail)
            | none => none
          | none => none
        | _ => none
      else if 224 ≤ b ∧ b ≤ 239 then
        match rest with
        | '%' :: h3 :: h4 :: '%' :: h5 :: h6 :: rest2 =>
          match contByte h3 h4, contByte h5 h6 with
          | some b2, some b3 =>
            let cp := (b - 224) * 4096 + (b2 - 128) * 64 + (b3 - 128)
            if 2048 ≤ cp ∧ ¬ (55296 ≤ cp ∧ cp ≤ 57343) then
              match percentDecodeChars rest2 with
              | some tail => some (Char.ofNat cp :: tail)
              | none => none
            else none
          | _, _ => none
        | _ => none
      else if 240 ≤ b ∧ b ≤ 244 then
        match rest with
        | '%' :: h3 :: h4 :: '%' :: h5 :: h6 :: '%' :: h7 :: h8 :: rest2 =>
          match contByte h3 h4, contByte h5 h6, contByte h7 h8 with
          | some b2, some b3, some b4 =>
            let cp := (b - 240) * 262144 + (b2 - 128) * 4096 + (b3 - 128) * 64 + (b4 - 128)
            if 65536 ≤ cp ∧ cp ≤ 1114111 then
              match percentDecodeChars rest2 with
              | some tail => some (Char.ofNat cp :: tail)
              | none => none
            else none
          | _, _, _ => none
        | _ => none
      else none
  | ['%'] => none
  | ['%', _] => none
  | c :: rest =>
    match percentDecodeChars rest with
    | some tail => some (c :: tail)
    | none => none

/-- decodeURIComponent on a string, none meaning a thrown URIError. -/
def percentDecode (s : String) : Option String :=
  match percentDecodeChars s.data with
  | some cs => some (String.mk cs)
  | none => none

/-! ## helpers.ts : pointer decoding and resolution -/

/-- normalizeInternalRef from src/helpers.ts: decode a URI-encoded internal
$ref; refs that do not start with # or carry no % are returned unchanged,
and a throwing decode is swallowed, returning the input. -/
def normalizeInternalRef (ref : String) : String :=
  if ¬ (strStarts ref "#") ∨ ¬ (strHasChar ref '%') then ref
  else
    match percentDecode (strDrop ref 1) with
    | some s => "#" ++ s
    | none => ref

/-- Replace every occurrence of the two-character pattern ~d by the
character rep (the JSON-pointer unescaping steps of jsonPointerDecode). -/
def tildeReplace (d : Char) (rep : Char) : List Char → List Char
  | [] => []
  | '~' :: c :: rest =>
    if c = d then rep :: tildeReplace d rep rest
    else '~' :: tildeReplace d rep (c :: rest)
  | c :: rest => c :: tildeReplace d rep rest

/-- jsonPointerDecode from src/helpers.ts: segment.replace(~1 to /) then
.replace(~0 to tilde), then decodeURIComponent (which can throw: none). -/
def jsonPointerDecode (seg : String) : Option String :=
  percentDecode (String.mk (tildeReplace '0' '~' (tildeReplace '1' '/' seg.data)))

/-- JavaScript array indexing by a string key: only the canonical decimal
form of an index hits an element.  (The array length property is not
modeled; no pointer in the corpus addresses it.) -/
def parseArrIndex (s : String) : Option Nat :=
  let digits := s.data
  if digits = [] then none
  else if digits.all (fun c => 48 ≤ c.toNat ∧ c.toNat ≤ 57) then
    let n := digits.foldl (fun acc c => acc * 10 + (c.toNat - 48)) 0
    if digits.head? = some '0' ∧ digits.length > 1 then none else some n
  else none

/-- Child access cur[k] for a decoded segment. -/
def Json.child (v : Json) (k : String) : Option Json :=
  match v with
  | .obj fs => alookup fs k
  | .arr xs =>
    match parseArrIndex k with
    | some i => xs.get? i
    | none => none
  | _ => none

/-- The segment walk of resolveInternalRef.  Each step first checks that
the current value is a container (otherwise the overall result is
undefined, modeled as ok none) and only then decodes the next segment,
where a malformed percent escape throws (modeled as error). -/
def resolveSegs : List String → Json → Except Unit (Option Json)
  | [], cur => .ok (some cur)
  | seg :: rest, cur =>
    if cur.isContainer then
      match jsonPointerDecode seg with
      | none => .error ()
      | some k =>
        match cur.child k with
        | some next => resolveSegs rest next
        | none => .ok none
    else .ok none

/-- resolveInternalRef from src/helpers.ts.  ok none models the undefined
result; error models a URIError escaping from jsonPointerDecode. -/
def resolveInternalRef (root : Json) (ref : String) : Except Unit (Option Json) :=
  if ¬ strStarts ref "#/" then .ok none
  else resolveSegs (strSplit (strDrop ref 2) '/') root

/-! ## helpers.ts : canonical serialization -/

/-- Field order used by Object.keys(obj).sort(): compare keys. -/
def fieldLe (a b : String × Json) : Prop := strLe a.1 b.1 = true

instance : DecidableRel fieldLe := fun a b => inferInstanceAs (Decidable (_ = true))

mutual

/-- sortKeys from src/helpers.ts: recursively rebuild every object with its
keys in sorted order; arrays keep their element order. -/
def sortKeys : Json → Json
  | .null => .null
  | .bool b => .bool b
  | .num n => .num n
  | .str s => .str s
  | .arr xs => .arr (sortKeysList xs)
  | .obj fs => .obj (List.insertionSort fieldLe (sortKeysFields fs))

def sortKeysList : List Json → List Json
  | [] => []
  | x :: xs => sortKeys x :: sortKeysList xs

def sortKeysFields : List (String × Json) → List (String × Json)
  | [] => []
  | (k, v) :: fs => (k, sortKeys v) :: sortKeysFields fs

end

/-- Two-digit lowercase hexadecimal rendering of a byte. -/
def hex2 (n : Nat) : String :=
  let d : Nat → Char := fun k => if k < 10 then Char.ofNat (48 + k) else Char.ofNat (97 + k - 10)
  String.mk [d (n / 16), d (n % 16)]

/-- JSON.stringify escaping for one character of a string literal. -/
def jsonEscapeChar (c : Char) : List Char :=
  if c = '"' then ['\\', '"']
  else if c = '\\' then ['\\', '\\']
  else if c.toNat = 8 then ['\\', 'b']
  else if c.toNat = 9 then ['\\', 't']
  else if c.toNat = 10 then ['\\', 'n']
  else if c.toNat = 12 then ['\\', 'f']
  else if c.toNat = 13 then ['\\', 'r']
  else if c.toNat < 32 then '\\' :: 'u' :: '0' :: '0' :: (hex2 c.toNat).data
  else [c]

/-- JSON.stringify rendering of a string literal. -/
def jsonQuote (s : String) : String :=
  "\"" ++ String.mk (s.data.flatMap jsonEscapeChar) ++ "\""

/-- Comma-join. -/
def joinComma : List String → String
  | [] => ""
  | [s] => s
  | s :: rest => s ++ "," ++ joinComma rest

mutual

/-- JSON.stringify with no indentation, for the JSON subset of the model
(numbers are integers, no undefined members). -/
def jsonStringify : Json → String
  | .null => "null"
  | .bool b => if b then "true" else "false"
  | .num n => toString n
  | .str s => jsonQuote s
  | .arr xs => "[" ++ joinComma (jsonStringifyList xs) ++ "]"
  | .obj fs => "\x7b" ++ joinComma (jsonStringifyFields fs) ++ "\x7d"

def jsonStringifyList : List Json → List String
  | [] => []
  | x :: xs => jsonStringify x :: jsonStringifyList xs

def jsonStringifyFields : List (String × Json) → List String
  | [] => []
  | (k, v) :: fs => (jsonQuote k ++ ":" ++ jsonStringify v) :: jsonStringifyFields fs

end

/-- canonicalStringify from src/helpers.ts: JSON.stringify of the
key-sorted tree, the exact structural signature. -/
def canonicalStringify (v : Json) : String := jsonStringify (sortKeys v)

mutual

/-- stripMetadata from src/helpers.ts: drop description and title members
from every object, at every depth. -/
def stripMetadata : Json → Json
  | .null => .null
  | .bool b => .bool b
  | .num n => .num n
  | .str s => .str s
  | .arr xs => .arr (stripMetadataList xs)
  | .obj fs => .obj (stripMetadataFields fs)

def stripMetadataList : List Json → List Json
  | [] => []
  | x :: xs => stripMetadata x :: stripMetadataList xs

def stripMetadataFields : List (String × Json) → List (String × Json)
  | [] => []
  | (k, v) :: fs =>
    if k = "description" ∨ k = "title" then stripMetadataFields fs
    else (k, stripMetadata v) :: stripMetadataFields fs

end

/-- structuralStringify from src/helpers.ts: metadata-stripped signature. -/
def structuralStringify (v : Json) : String :=
  jsonStringify (sortKeys (stripMetadata v))

/-! ## helpers.ts : the $like-ref counter and the internal-ref rewriter -/

/-- The disallowed shape of the validator: a $ref string into the paths
subtree ending in /properties/$like or /properties/%24like (the regular
expression of findPathLocalLikeRefs). -/
def isPathLocalLikeRef (r : String) : Bool :=
  strStarts r "#/paths/" &&
    (strEnds r "/properties/$like" || strEnds r "/properties/%24like")

mutual

/-- findPathLocalLikeRefs from src/helpers.ts: count the nodes whose $ref
string matches the disallowed $like shape.  The identity based visited set
of the source cannot trigger on an alias-free tree and is omitted. -/
def countLikeRefs : Json → Nat
  | .obj fs =>
    (match alookup fs "$ref" with
     | some (.str r) => if isPathLocalLikeRef r then 1 else 0
     | _ => 0) + countLikeRefsFields fs
  | .arr xs => countLikeRefsList xs
  | _ => 0

def countLikeRefsList : List Json → Nat
  | [] => 0
  | x :: xs => countLikeRefs x + countLikeRefsList xs

def countLikeRefsFields : List (String × Json) → Nat
  | [] => 0
  | (_, v) :: fs => countLikeRefs v + countLikeRefsFields fs

end

mutual

/-- rewriteInternalRefs from src/helpers.ts: decode every string-valued
$ref member through normalizeInternalRef, everywhere in the tree. -/
def rewriteInternalRefs : Json → Json
  | .null => .null
  | .bool b => .bool b
  | .num n => .num n
  | .str s => .str s
  | .arr xs => .arr (rewriteInternalRefsList xs)
  | .obj fs => .obj (rewriteInternalRefsFields fs)

def rewriteInternalRefsList : List Json → List Json
  | [] => []
  | x :: xs => rewriteInternalRefs x :: rewriteInternalRefsList xs

def rewriteInternalRefsFields : List (String × Json) → List (String × Json)
  | [] => []
  | (k, v) :: fs =>
    if h : k = "$ref" then
      match v with
      | .str r => (k, .str (normalizeInternalRef r)) :: rewriteInternalRefsFields fs
      | other => (k, rewriteInternalRefs other) :: rewriteInternalRefsFields fs
    else (k, rewriteInternalRefs v) :: rewriteInternalRefsFields fs

end

/-! ## Order properties of the path sort used by listFilesRecursive -/

/-- The path order of the sorted file listing. -/
def pathLe (a b : String) : Prop := strLe a b = true

instance : DecidableRel pathLe := fun a b => inferInstanceAs (Decidable (_ = true))

/-! ## helpers.ts : hashDirectoryTree

listFilesRecursive explores the directory tree with an explicit stack and
then sorts the collected paths, so the hash input stream depends only on
the set of (relative path, content) pairs.  The filesystem is modeled as a
finite list of such pairs in arbitrary enumeration order; the SHA-256
primitive of node:crypto is an external deterministic digest and is taken
as a parameter. -/

/-- listFilesRecursive from src/helpers.ts, reduced to its observable
content: the collected file paths in sorted order. -/
def listFilesRecursive (paths : List String) : List String :=
  List.insertionSort pathLe paths

/-- hashDirectoryTree from src/helpers.ts: feed relative path then content
of every file, in sorted path order, to the digest. -/
def hashDirectoryTree (digest : String → String)
    (files : List (String × String)) : String :=
  let stream := String.join
    ((listFilesRecursive (files.map Prod.fst)).map
      (fun p => p ++ ((alookup files p).getD "")))
  "sha256:" ++ digest stream

/-! ## Key-reordering equivalence and the canonicalization contract -/

/-- Strict field order: key strictly smaller.  Used to make sorted field
lists unique when keys are duplicate free. -/
def fieldLt (a b : String × Json) : Prop := fieldLe a b ∧ a.1 ≠ b.1

mutual

/-- Equality of JSON values up to reordering of object keys at any depth
(reordering is only meaningful for duplicate-free keys, as in JavaScript
objects). -/
inductive KeyPerm : Json → Json → Prop where
  | null : KeyPerm .null .null
  | bool (b : Bool) : KeyPerm (.bool b) (.bool b)
  | num (n : Int) : KeyPerm (.num n) (.num n)
  | str (s : String) : KeyPerm (.str s) (.str s)
  | arr {xs ys : List Json} : KeyPermL xs ys → KeyPerm (.arr xs) (.arr ys)
  | obj {fs gs : List (String × Json)} : KeyPermF fs gs → KeyPerm (.obj fs) (.obj gs)
  | objPerm {fs gs : List (String × Json)} : fs.Perm gs → (fs.map Prod.fst).Nodup →
      KeyPerm (.obj fs) (.obj gs)
  | trans {a b c : Json} : KeyPerm a b → KeyPerm b c → KeyPerm a c

inductive KeyPermL : List Json → List Json → Prop where
  | nil : KeyPermL [] []
  | cons {x y : Json} {xs ys : List Json} :
      KeyPerm x y → KeyPermL xs ys → KeyPermL (x :: xs) (y :: ys)

inductive KeyPermF : List (String × Json) → List (String × Json) → Prop where
  | nil : KeyPermF [] []
  | cons {k : String} {v w : Json} {fs gs : List (String × Json)} :
      KeyPerm v w → KeyPermF fs gs → KeyPermF ((k, v) :: fs) ((k, w) :: gs)

end

/-! ## Path-indexed tree access

In-place mutation of the JavaScript tree is modeled by rebuilding along a
path of decoded segments (object keys, or canonical decimal array
indices). -/

/-- Read the node at a path. -/
def getPath : List String → Json → Option Json
  | [], v => some v
  | s :: rest, v =>
    match v.child s with
    | some w => getPath rest w
    | none => none

/-- List.set for arrays. -/
def listSet : List Json → Nat → Json → List Json
  | [], _, _ => []
  | _ :: xs, 0, w => w :: xs
  | x :: xs, n + 1, w => x :: listSet xs n w

/-- Replace the node at a path (no-op when the path is absent). -/
def setPath : List String → Json → Json → Json
  | [], _, newVal => newVal
  | s :: rest, v, newVal =>
    match v with
    | .obj fs =>
      match alookup fs s with
      | some w => .obj (aset fs s (setPath rest w newVal))
      | none => .obj fs
    | .arr xs =>
      match parseArrIndex s with
      | some i =>
        match xs.get? i with
        | some w => .arr (listSet xs i (setPath rest w newVal))
        | none => .arr xs
      | none => .arr xs
    | other => other

/-- The node obj[$ref] = s mutation at a path: assign the $ref member of
the object there, keeping every other member. -/
def setRefAt (t : Json) (p : List String) (s : String) : Json :=
  match getPath p t with
  | some (.obj fs) => setPath p t (.obj (aset fs "$ref" (.str s)))
  | _ => t

/-- The delete-all-members-then-assign-$ref mutation: the node becomes a
single-member reference object. -/
def refObj (s : String) : Json := .obj [("$ref", .str s)]

/-- Truthiness of the $ref member of a field list. -/
def truthyRef (fs : List (String × Json)) : Bool :=
  match alookup fs "$ref" with
  | some v => v.truthy
  | none => false

/-- Key presence, the JavaScript `in` operator on plain objects. -/
def hasKey (fs : List (String × Json)) (k : String) : Bool :=
  (alookup fs k).isSome

/-! ## bundle.ts : the safeNormalize walk

safeNormalize (src/bundle.ts) is a cycle-safe recursive walk over the live
document that resolves path-local $refs against the pre-normalization
snapshot, mutating both trees in place.  The embedding threads a state of
both trees, a visited set of (tree, path) pairs for the shared normSeen
set, and a log of the resolutions performed (the log is ghost
instrumentation: it does not influence the computation). -/

/-- The configuration captured before the walk starts: the signature map
built from the (post-augment) component schemas (later entries win, as
with Map.set), the merged manual override table, whether a truthy
LikeFilter schema exists, the paths of the component schema values (the
componentValues identity set), and the names of truthy schemas (for the
x-semantic-type rewrite). -/
structure NCfg where
  sigMap : List (String × String)
  overrides : List (String × String)
  likeOk : Bool
  protPaths : List (List String)
  semNames : List String

/-- The walk state: live document, snapshot (mutated in place by the walk
through resolved targets), the visited set, and the resolution log. -/
structure NSt where
  live : Json
  snap : Json
  seen : List (Bool × List String)
  log : List (String × Json)

/-- Select a tree: true is the live document, false the snapshot. -/
def NSt.tree : NSt → Bool → Json
  | σ, true => σ.live
  | σ, false => σ.snap

/-- Store a tree back. -/
def NSt.setTree : NSt → Bool → Json → NSt
  | σ, true, t => { σ with live := t }
  | σ, false, t => { σ with snap := t }

/-- The $like short-circuit test of safeNormalize: the decoded ref targets
the paths subtree, ends in /properties/$like, and a truthy LikeFilter
component exists. -/
def likeRefTest (cfg : NCfg) (r : String) : Bool :=
  let n := normalizeInternalRef r
  strStarts n "#/paths/" && strEnds n "/properties/$like" && cfg.likeOk

/-- Resolution that also returns the decoded segment path of the target,
with the same container/absence/throw behaviour as resolveInternalRef. -/
def resolveSegsPath : List String → Json → Except Unit (Option (List String))
  | [], _ => .ok (some [])
  | seg :: rest, cur =>
    if cur.isContainer then
      match jsonPointerDecode seg with
      | none => .error ()
      | some k =>
        match cur.child k with
        | some next =>
          match resolveSegsPath rest next with
          | .ok (some tail) => .ok (some (k :: tail))
          | other => other
        | none => .ok none
    else .ok none

/-- The decoded target path of an internal ref, if it resolves. -/
def resolveRefPath (root : Json) (ref : String) : Except Unit (Option (List String)) :=
  if ¬ strStarts ref "#/" then .ok none
  else resolveSegsPath (strSplit (strDrop ref 2) '/') root

/-- The keys a walk iterates for a node, in insertion order
(Object.values / forEach). -/
def childKeys : Json → List String
  | .obj fs => fs.map Prod.fst
  | .arr xs => (List.range xs.length).map (fun i => toString i)
  | _ => []

/-- The manual-override / signature tail of the path-local $ref rewrite:
consulted only when the (normalized-in-place) resolved target did not
carry an adoptable stable reference.  r is the unchanged original $ref
string of the node; resolvedNode is the target as it stands in the
snapshot after the recursive normalization. -/
def overrideOrSig (cfg : NCfg) (t : Bool) (p : List String) (r : String)
    (resolvedNode : Json) (σ : NSt) : NSt :=
  match alookup cfg.overrides r with
  | some name => σ.setTree t (setRefAt (σ.tree t) p ("#/components/schemas/" ++ name))
  | none =>
    match alookup cfg.sigMap (canonicalStringify resolvedNode) with
    | some name => σ.setTree t (setRefAt (σ.tree t) p ("#/components/schemas/" ++ name))
    | none => σ

/-- The inline-dedup and x-semantic-type tail of safeNormalize, reached for
nodes without a path-local string $ref.  Applies only when the $ref member
is not truthy; first the exact-signature replacement, otherwise the
declared-semantic-type replacement. -/
def dedupPhase (cfg : NCfg) (t : Bool) (p : List String) (σ : NSt) : NSt :=
  match getPath p (σ.tree t) with
  | some (.obj fs) =>
    if truthyRef fs then σ
    else
      match alookup cfg.sigMap (canonicalStringify (.obj fs)) with
      | some name => σ.setTree t (setPath p (σ.tree t) (refObj ("#/components/schemas/" ++ name)))
      | none =>
        match alookup fs "x-semantic-type" with
        | some (.str tag) =>
          if (Json.str tag).truthy ∧ tag ∈ cfg.semNames then
            σ.setTree t (setPath p (σ.tree t) (refObj ("#/components/schemas/" ++ tag)))
          else σ
        | _ => σ
  | _ => σ

/-- The path-local $ref handling of safeNormalize, run after the children
of the node were normalized (go1 is the walk itself, entered on the
snapshot at the resolved target).  On a node without a path-local string
$ref this falls through to the dedup / semantic-type tail. -/
def transientPhase (go1 : Bool → List String → NSt → Except String NSt)
    (cfg : NCfg) (t : Bool) (p : List String) (σ : NSt) : Except String NSt :=
  match getPath p (σ.tree t) with
  | some (.obj fs) =>
    match alookup fs "$ref" with
    | some (.str r) =>
      if strStarts r "#/paths/" then
        match resolveRefPath σ.snap r with
        | .error _ => .error "URIError"
        | .ok none => .ok σ
        | .ok (some segs) =>
          match getPath segs σ.snap with
          | some v =>
            if v.isContainer then do
              let σ2 ← go1 false segs { σ with log := σ.log ++ [(r, v)] }
              match getPath segs σ2.snap with
              | some resolvedNode =>
                match resolvedNode with
                | .obj rfs =>
                  match alookup rfs "$ref" with
                  | some (.str s) =>
                    if strStarts s "#/components/schemas/" then
                      .ok (σ2.setTree t (setRefAt (σ2.tree t) p s))
                    else .ok (overrideOrSig cfg t p r resolvedNode σ2)
                  | _ => .ok (overrideOrSig cfg t p r resolvedNode σ2)
                | other => .ok (overrideOrSig cfg t p r other σ2)
              | none => .ok σ2
            else .ok σ
          | none => .ok σ
      else .ok (dedupPhase cfg t p σ)
    | _ => .ok (dedupPhase cfg t p σ)
  | _ => .ok σ

/-- safeNormalize from src/bundle.ts as a fuel-indexed walk.  The phases of
one node, in source order: the scalar and visited-set early returns, the
$like short-circuit, the componentValues guard (children only), the array
recursion, the post-order children recursion, and then the path-local-$ref
/ inline-dedup / semantic-type tail. -/
def goNode : Nat → NCfg → Bool → List String → NSt → Except String NSt
  | 0, _, _, _, _ => .error "fuel"
  | fuel + 1, cfg, t, p, σ =>
    match getPath p (σ.tree t) with
    | none => .ok σ
    | some node =>
      if ¬ node.isContainer then .ok σ
      else if (t, p) ∈ σ.seen then .ok σ
      else
        let σ1 : NSt := { σ with seen := (t, p) :: σ.seen }
        let isLike : Bool :=
          match node with
          | .obj fs =>
            match alookup fs "$ref" with
            | some (.str r) => likeRefTest cfg r
            | _ => false
          | _ => false
        if isLike then
          .ok (σ1.setTree t (setRefAt (σ1.tree t) p "#/components/schemas/LikeFilter"))
        else if t = true ∧ p ∈ cfg.protPaths then
          (childKeys node).foldlM (fun σ k => goNode fuel cfg t (p ++ [k]) σ) σ1
        else
          match node with
          | .arr _ =>
            (childKeys node).foldlM (fun σ k => goNode fuel cfg t (p ++ [k]) σ) σ1
          | .obj _ => do
            let σ2 ← (childKeys node).foldlM
              (fun σ k => goNode fuel cfg t (p ++ [k]) σ) σ1
            transientPhase (goNode fuel cfg) cfg t p σ2
          | _ => .ok σ1

/-! ## bundle.ts : configuration of the normalization pass -/

/-- The component schema fields of a document. -/
def schemasOf (doc : Json) : List (String × Json) :=
  match getPath ["components", "schemas"] doc with
  | some (.obj fs) => fs
  | _ => []

/-- The canonical-signature map built from the schemas before the walk
(Map.set: a later schema with the same signature wins). -/
def buildSigMap (schemas : List (String × Json)) : List (String × String) :=
  schemas.foldl (fun m kv => aset m (canonicalStringify kv.2) kv.1) []

/-- ensureComponents from src/bundle.ts: create falsy components and
components.schemas members as empty objects. -/
def ensureComponents (doc : Json) : Json :=
  match doc with
  | .obj fs =>
    let fs1 : List (String × Json) :=
      match alookup fs "components" with
      | some v => if v.truthy then fs else aset fs "components" (.obj [])
      | none => aset fs "components" (.obj [])
    match alookup fs1 "components" with
    | some (Json.obj cfs) =>
      let cfs1 : List (String × Json) :=
        match alookup cfs "schemas" with
        | some v => if v.truthy then cfs else aset cfs "schemas" (.obj [])
        | none => aset cfs "schemas" (.obj [])
      .obj (aset fs1 "components" (.obj cfs1))
    | _ => .obj fs1
  | other => other

/-- The default manual overrides of src/bundle.ts. -/
def defaultManualOverrides : List (String × String) :=
  [("#/paths/~1process-instances~1search/post/requestBody/content/application~1json/schema/properties/filter/allOf/0",
    "ProcessInstanceFilter"),
   ("#/paths/~1process-definitions~1%7BprocessDefinitionKey%7D~1statistics~1element-instances/post/requestBody/content/application~1json/schema/properties/filter/allOf/0/allOf/0",
    "BaseProcessInstanceFilterFields")]

/-- Spread-merge of the default table with caller overrides. -/
def mergeOverrides (opts : List (String × String)) : List (String × String) :=
  opts.foldl (fun m kv => aset m kv.1 kv.2) defaultManualOverrides

/-- Build the walk configuration from the post-augment document. -/
def mkNCfg (doc : Json) (overrides : List (String × String)) : NCfg :=
  let schemas := schemasOf doc
  { sigMap := buildSigMap schemas
    overrides := overrides
    likeOk := (match alookup schemas "LikeFilter" with
               | some v => v.truthy
               | none => false)
    protPaths := (schemas.filter (fun kv => kv.2.isContainer)).map
      (fun kv => ["components", "schemas", kv.1])
    semNames := (schemas.filter (fun kv => kv.2.truthy)).map Prod.fst }

/-- Steps 3 of bundle(): run safeNormalize from the document root, with the
snapshot starting as the (conceptually deep-copied) pre-normalization
document. -/
def normalizePhase (fuel : Nat) (overrides : List (String × String))
    (doc : Json) : Except String NSt :=
  goNode fuel (mkNCfg doc overrides) true []
    { live := doc, snap := doc, seen := [], log := [] }

/-! ## bundle.ts : promoteInlineSchemas -/

/-- Lowercase an ASCII letter (for the case-insensitive title regex). -/
def lowerChar (c : Char) : Char :=
  if 65 ≤ c.toNat ∧ c.toNat ≤ 90 then Char.ofNat (c.toNat + 32) else c

/-- The whitespace class of the title regexes (ASCII forms and NBSP; the
titles of the corpus are ASCII). -/
def isWsChar (c : Char) : Bool :=
  c.toNat = 9 ∨ c.toNat = 10 ∨ c.toNat = 11 ∨ c.toNat = 12 ∨ c.toNat = 13 ∨
    c.toNat = 32 ∨ c.toNat = 160

/-- /exact\s*match/i .test(title): an unanchored, case-insensitive search. -/
def titleExactMatch (title : String) : Bool :=
  let rec search : List Char → Bool
    | [] => false
    | l@(_ :: rest) =>
      (charsStart l "exact".data &&
        charsStart ((l.drop 5).dropWhile isWsChar) "match".data) ||
      search rest
  search (title.data.map lowerChar)

/-- title.trim() truthiness. -/
def trimNonempty (title : String) : Bool :=
  ¬ (title.data.dropWhile isWsChar).isEmpty

/-- title.replace(/\s+/g, ""). -/
def removeWs (title : String) : String :=
  String.mk (title.data.filter (fun c => ¬ isWsChar c))

/-- schemaName.replace(/FilterProperty$/, ""). -/
def stripFilterProp (s : String) : String :=
  if strEnds s "FilterProperty" then String.mk (s.data.take (s.data.length - 14))
  else s

/-- The promoted-name policy of promoteInlineSchemas: the FilterProperty /
exact-match convention first, else parent name plus whitespace-stripped
title; none when the variant deserves no name. -/
def derivepromotedName (schemaName : String) (vfs : List (String × Json)) : Option String :=
  let viaFilter : Option String :=
    if strEnds schemaName "FilterProperty" then
      match alookup vfs "title" with
      | some (.str title) =>
        if titleExactMatch title then some (stripFilterProp schemaName ++ "ExactMatch")
        else none
      | _ => none
    else none
  match viaFilter with
  | some n => some n
  | none =>
    match alookup vfs "title" with
    | some (.str title) =>
      if trimNonempty title then some (schemaName ++ removeWs title) else none
    | _ => none

/-- The collision loop: append an increasing numeric suffix until the name
hits no truthy schema and no pending promoted schema.  Fuel bounds the
search (the loop of the source always terminates on finite key sets). -/
def freshFrom (used : String → Bool) (base : String) : Nat → Nat → String
  | 0, c => base ++ toString c
  | fuel + 1, c =>
    let cand := base ++ toString c
    if used cand then freshFrom used base fuel (c + 1) else cand

/-- Final unique name for a promoted schema. -/
def freshName (used : String → Bool) (base : String) (fuel : Nat) : String :=
  if used base then freshFrom used base fuel 1 else base

/-- Process the variant list of one oneOf/anyOf composition: promote every
inline object variant with enough structure and a derivable name,
accumulating the new schemas in encounter order. -/
def promoteVariants (schemas0 : List (String × Json)) (schemaName : String) :
    List Json → List (String × Json) → (List Json × List (String × Json))
  | [], acc => ([], acc)
  | v :: vs, acc =>
    let (v', acc') :=
      match v with
      | .obj vfs =>
        if truthyRef vfs then (Json.obj vfs, acc)
        else if ¬ (hasKey vfs "properties" || hasKey vfs "enum" || hasKey vfs "allOf") then
          (Json.obj vfs, acc)
        else
          match derivepromotedName schemaName vfs with
          | none => (Json.obj vfs, acc)
          | some base =>
            let used : String → Bool := fun n =>
              (match alookup schemas0 n with
               | some w => w.truthy
               | none => false) ||
              (match alookup acc n with
               | some w => w.truthy
               | none => false)
            let finalName := freshName used base (schemas0.length + acc.length + 2)
            (refObj ("#/components/schemas/" ++ finalName),
             acc ++ [(finalName, Json.obj vfs)])
      | other => (other, acc)
    let (vs', acc'') := promoteVariants schemas0 schemaName vs acc'
    (v' :: vs', acc'')

/-- Process the oneOf then the anyOf composition of one schema. -/
def promoteSchema (schemas0 : List (String × Json))
    (name : String) (schema : Json) (acc : List (String × Json)) :
    (Json × List (String × Json)) :=
  match schema with
  | .obj fs =>
    let (fs1, acc1) :=
      match alookup fs "oneOf" with
      | some (.arr vs) =>
        let (vs', a) := promoteVariants schemas0 name vs acc
        (aset fs "oneOf" (.arr vs'), a)
      | _ => (fs, acc)
    let (fs2, acc2) :=
      match alookup fs1 "anyOf" with
      | some (.arr vs) =>
        let (vs', a) := promoteVariants schemas0 name vs acc1
        (aset fs1 "anyOf" (.arr vs'), a)
      | _ => (fs1, acc1)
    (.obj fs2, acc2)
  | other => (other, acc)

/-- Iterate the schema entries in order, threading the pending promoted
schemas. -/
def promoteAll (schemas0 : List (String × Json)) :
    List (String × Json) → List (String × Json) →
    (List (String × Json) × List (String × Json))
  | [], acc => ([], acc)
  | (n, s) :: rest, acc =>
    let (s', acc') := promoteSchema schemas0 n s acc
    let (rest', acc'') := promoteAll schemas0 rest acc'
    ((n, s') :: rest', acc'')

/-- promoteInlineSchemas from src/bundle.ts, on the whole document: the
schema collection with replaced variants, the fresh schemas appended
(Object.assign), and the promoted count. -/
def promoteDoc (doc : Json) : Json × Nat :=
  let schemas := schemasOf doc
  let (entries', newS) := promoteAll schemas schemas []
  (setPath ["components", "schemas"] doc (.obj (entries' ++ newS)), newS.length)

/-! ## bundle.ts : the dereference pass (step 4) -/

/-- Is the value the JSON null. -/
def Json.isNull : Json → Bool
  | .null => true
  | _ => false

/-- The resolution of the dereference pass: prefer the post-normalization
snapshot, falling back (?? is nullish) to the pre-normalization snapshot
when the first resolution is undefined or null. -/
def derefResolve (postSnap preSnap : Json) (r : String) : Except Unit (Option Json) :=
  match resolveInternalRef postSnap r with
  | .error e => .error e
  | .ok (some v) => if v.isNull then resolveInternalRef preSnap r else .ok (some v)
  | .ok none => resolveInternalRef preSnap r

/-- Child sweep of one popped node of the dereference pass: replace every
child that is an object with a truthy... with a path-local string $ref by
a deep copy of its resolved value (when the resolution is truthy), count
the replacements, and collect the child paths to push.  pushAll is true
for array nodes (every item is pushed) and false for object nodes (only
container children are pushed). -/
def derefChildren (postSnap preSnap : Json) (pushAll : Bool) (p : List String) :
    List String → Json → Nat → List (List String) →
    Except String (Json × Nat × List (List String))
  | [], tree, count, pushed => .ok (tree, count, pushed)
  | k :: ks, tree, count, pushed =>
    match getPath (p ++ [k]) tree with
    | none => derefChildren postSnap preSnap pushAll p ks tree count pushed
    | some val =>
      if ¬ pushAll ∧ ¬ val.isContainer then
        derefChildren postSnap preSnap pushAll p ks tree count pushed
      else
        match val with
        | .obj vfs =>
          match alookup vfs "$ref" with
          | some (.str r) =>
            if strStarts r "#/paths/" then
              match derefResolve postSnap preSnap r with
              | .error _ => .error "URIError"
              | .ok res =>
                let step : Json × Nat :=
                  match res with
                  | some v =>
                    if v.truthy then (setPath (p ++ [k]) tree v, count + 1)
                    else (tree, count)
                  | none => (tree, count)
                derefChildren postSnap preSnap pushAll p ks step.1 step.2
                  (pushed ++ [p ++ [k]])
            else
              derefChildren postSnap preSnap pushAll p ks tree count
                (pushed ++ [p ++ [k]])
          | _ =>
            derefChildren postSnap preSnap pushAll p ks tree count
              (pushed ++ [p ++ [k]])
        | _ =>
          derefChildren postSnap preSnap pushAll p ks tree count
            (pushed ++ [p ++ [k]])

/-- The stack machine of one dereference pass (the while loop of step 4):
pop a path, skip scalars, missing nodes and already visited paths,
otherwise sweep the children and push them (in LIFO order). -/
def derefMachine (postSnap preSnap : Json) :
    Nat → Json → List (List String) → List (List String) → Nat →
    Except String (Json × Nat)
  | 0, _, _, _, _ => .error "fuel"
  | f + 1, tree, stack, seen, count =>
    match stack with
    | [] => .ok (tree, count)
    | p :: rest =>
      match getPath p tree with
      | none => derefMachine postSnap preSnap f tree rest seen count
      | some node =>
        if ¬ node.isContainer then
          derefMachine postSnap preSnap f tree rest seen count
        else if p ∈ seen then
          derefMachine postSnap preSnap f tree rest seen count
        else
          match node with
          | .arr _ => do
            let (tree', count', pushed) ←
              derefChildren postSnap preSnap true p (childKeys node) tree count []
            derefMachine postSnap preSnap f tree' (pushed.reverse ++ rest)
              (p :: seen) count'
          | .obj _ => do
            let (tree', count', pushed) ←
              derefChildren postSnap preSnap false p (childKeys node) tree count []
            derefMachine postSnap preSnap f tree' (pushed.reverse ++ rest)
              (p :: seen) count'
          | _ => derefMachine postSnap preSnap f tree rest seen count

/-- One dereference pass over the whole document. -/
def derefPass (fuel : Nat) (postSnap preSnap doc : Json) : Except String (Json × Nat) :=
  derefMachine postSnap preSnap fuel doc [[]] [] 0

/-- The pass loop of step 4: up to 20 passes, stopping after the first
pass with zero replacements; returns the document, the accumulated
replacement count and the number of passes executed. -/
def derefLoop (fuel : Nat) (postSnap preSnap : Json) :
    Nat → Json → Nat → Nat → Except String (Json × Nat × Nat)
  | 0, doc, acc, used => .ok (doc, acc, used)
  | b + 1, doc, acc, used => do
    let (doc', k) ← derefPass fuel postSnap preSnap doc
    if k = 0 then .ok (doc', acc + k, used + 1)
    else derefLoop fuel postSnap preSnap b doc' (acc + k) (used + 1)

/-! ## bundle.ts : freshSignatureDedup (step 4b) -/

/-- The schema-shaped test of the dedup pass (key presence). -/
def isSchemaLikeFields (fs : List (String × Json)) : Bool :=
  hasKey fs "properties" || hasKey fs "enum" || hasKey fs "allOf" ||
    hasKey fs "oneOf" || hasKey fs "anyOf"

/-- Build the exact and structural signature maps from the component
schemas, skipping non-container schemas and schemas that are themselves
references (later entries win). -/
def buildDedupMaps (schemas : List (String × Json)) :
    List (String × String) × List (String × String) :=
  schemas.foldl
    (fun ms kv =>
      match kv.2 with
      | .obj fs =>
        if truthyRef fs then ms
        else (aset ms.1 (canonicalStringify kv.2) kv.1,
              aset ms.2 (structuralStringify kv.2) kv.1)
      | .arr _ =>
        (aset ms.1 (canonicalStringify kv.2) kv.1,
         aset ms.2 (structuralStringify kv.2) kv.1)
      | _ => ms)
    ([], [])

mutual

/-- The post-order dedup walk of freshSignatureDedup: children first, then
replace a $ref-free schema-shaped object whose exact (else structural)
signature hits the component map.  Runs only inside the paths subtree;
the componentValues identity guard of the source cannot trigger there on
an alias-free tree and is omitted, as is the (then redundant) visited
set. -/
def dedupWalk (em sm : List (String × String)) : Json → Json × Nat
  | .obj fs =>
    let r := dedupWalkFields em sm fs
    if truthyRef r.1 then (.obj r.1, r.2)
    else if isSchemaLikeFields r.1 then
      match alookup em (canonicalStringify (.obj r.1)) with
      | some name => (refObj ("#/components/schemas/" ++ name), r.2 + 1)
      | none =>
        match alookup sm (structuralStringify (.obj r.1)) with
        | some name => (refObj ("#/components/schemas/" ++ name), r.2 + 1)
        | none => (.obj r.1, r.2)
    else (.obj r.1, r.2)
  | .arr xs =>
    let r := dedupWalkList em sm xs
    (.arr r.1, r.2)
  | other => (other, 0)

def dedupWalkList (em sm : List (String × String)) : List Json → List Json × Nat
  | [] => ([], 0)
  | x :: xs =>
    let r1 := dedupWalk em sm x
    let r2 := dedupWalkList em sm xs
    (r1.1 :: r2.1, r1.2 + r2.2)

def dedupWalkFields (em sm : List (String × String)) :
    List (String × Json) → List (String × Json) × Nat
  | [] => ([], 0)
  | (k, v) :: fs =>
    let r1 := dedupWalk em sm v
    let r2 := dedupWalkFields em sm fs
    ((k, r1.1) :: r2.1, r1.2 + r2.2)

end

/-- freshSignatureDedup from src/bundle.ts: build the maps from the
current schemas and walk only the paths subtree. -/
def freshSignatureDedup (doc : Json) : Json × Nat :=
  let maps := buildDedupMaps (schemasOf doc)
  match getPath ["paths"] doc with
  | some pv =>
    if pv.isContainer then
      let r := dedupWalk maps.1 maps.2 pv
      (setPath ["paths"] doc r.1, r.2)
    else (doc, 0)
  | none => (doc, 0)

/-- The convergence loop of step 4b: up to 10 passes, stopping after the
first pass with zero replacements. -/
def dedupLoop : Nat → Json → Nat → Nat → Json × Nat × Nat
  | 0, doc, acc, used => (doc, acc, used)
  | b + 1, doc, acc, used =>
    let r := freshSignatureDedup doc
    if r.2 = 0 then (r.1, acc + r.2, used + 1)
    else dedupLoop b r.1 (acc + r.2) (used + 1)

/-! ## bundle.ts : validation, statistics and outputs (steps 5 to 7) -/

/-- The options of bundle() that the core transformation reads.  The
upstream multi-file merge (SwaggerParser.bundle) and the filesystem
augment step of step 2 happen before the embedded pipeline: bundleCore
receives the already merged and augmented document. -/
structure BundleOpts where
  dereferencePathLocalRefs : Bool
  allowPathLocalLikeRefs : Bool
  manualOverrides : List (String × String)
  outputSpec : Option String
  outputMetadata : Option String

/-- The statistics record of bundle() (augmentedSchemaCount belongs to the
unmodeled filesystem augment step and is omitted). -/
structure BundleStats where
  pathCount : Nat
  schemaCount : Nat
  promotedInlineSchemaCount : Nat
  dereferencedPathLocalRefCount : Nat
  freshDedupCount : Nat
  pathLocalLikeRefCount : Nat

/-- The result of a completed run: the normalized document, the
statistics, and the names of the output files written in step 7 (the
contents involve the unmodeled metadata extractor; only the fact of the
writes, which happen strictly after validation, is modeled). -/
structure BundleRes where
  spec : Json
  stats : BundleStats
  writes : List String

/-- The validation error message of step 5. -/
def likeErrorMessage (n : Nat) : String :=
  toString n ++ " path-local $like ref(s) survived normalization. " ++
    "This will cause generator failures. Set allowPathLocalLikeRefs to bypass."

/-- Object.keys(x).length for the pathCount statistic (paths is an object
in any well-formed document; the degenerate coercions of Object.keys on
primitives are mirrored). -/
def jsKeyCount : Json → Nat
  | .obj fs => fs.length
  | .arr xs => xs.length
  | .str s => s.data.length
  | _ => 0

/-- Steps 5 to 7 of bundle(): count the surviving path-local $like refs,
abort when any survive and the caller did not allow them (so that no
output is written), otherwise assemble statistics and write outputs. -/
def bundlePost (opts : BundleOpts) (doc : Json)
    (promoted derefCount dedupCount : Nat) : Except String BundleRes :=
  let n := countLikeRefs doc
  if n > 0 ∧ ¬ opts.allowPathLocalLikeRefs then .error (likeErrorMessage n)
  else
    .ok
      { spec := doc
        stats :=
          { pathCount :=
              (match getPath ["paths"] doc with
               | some pv => if pv.truthy then jsKeyCount pv else 0
               | none => 0)
            schemaCount := (schemasOf doc).length
            promotedInlineSchemaCount := promoted
            dereferencedPathLocalRefCount := derefCount
            freshDedupCount := dedupCount
            pathLocalLikeRefCount := n }
        writes := opts.outputSpec.toList ++ opts.outputMetadata.toList }

/-- Steps 2 to 4b of bundle(): ensure the components collection, normalize
(mutating live tree and snapshot), decode the remaining encoded refs,
promote inline union variants, optionally dereference remaining path-local
refs (against the post-promotion snapshot, falling back to the
pre-normalization snapshot as the walk left it), and run the convergent
dedup loop.  Returns the document before validation together with the
counters. -/
def prevalidate (fuel : Nat) (opts : BundleOpts) (bundled : Json) :
    Except String (Json × Nat × Nat × Nat) := do
  let doc := ensureComponents bundled
  let σ ← normalizePhase fuel (mergeOverrides opts.manualOverrides) doc
  let live1 := rewriteInternalRefs σ.live
  let pr := promoteDoc live1
  let postSnap := pr.1
  let dr ←
    if opts.dereferencePathLocalRefs then
      derefLoop fuel postSnap σ.snap 20 pr.1 0 0
    else .ok (pr.1, 0, 0)
  let dd := dedupLoop 10 dr.1 0 0
  .ok (dd.1, pr.2, dr.2.1, dd.2.1)

/-- bundle() from src/bundle.ts, from the merged-and-augmented document to
the validated result. -/
def bundleCore (fuel : Nat) (opts : BundleOpts) (bundled : Json) :
    Except String BundleRes := do
  let r ← prevalidate fuel opts bundled
  bundlePost opts r.1 r.2.1 r.2.2.1 r.2.2.2

/-! ## The mutation discipline of safeNormalize

Every tree change the walk performs is one of two shapes: a $ref
assignment installing a reference into the component schema collection at
an existing object node, or the wholesale replacement of an object node
without a truthy $ref (never a top-level component schema value of the
live tree) by a reference to a single matching named type.  Snapshot
changes and resolutions can only happen after at least one resolution was
logged, and every logged resolution reads the snapshot as it stands. -/

/-- One admissible state transition of the safeNormalize walk. -/
inductive NStep (cfg : NCfg) : NSt → NSt → Prop where
  | liveRef {L S : Json} {seen : List (Bool × List String)}
      {log : List (String × Json)} {p : List String}
      {fs : List (String × Json)} {s : String} :
      getPath p L = some (.obj fs) →
      strStarts s "#/components/schemas/" = true →
      NStep cfg ⟨L, S, seen, log⟩ ⟨setRefAt L p s, S, seen, log⟩
  | snapRef {L S : Json} {seen : List (Bool × List String)}
      {log : List (String × Json)} {p : List String}
      {fs : List (String × Json)} {s : String} :
      log ≠ [] →
      getPath p S = some (.obj fs) →
      strStarts s "#/components/schemas/" = true →
      NStep cfg ⟨L, S, seen, log⟩ ⟨L, setRefAt S p s, seen, log⟩
  | liveRepl {L S : Json} {seen : List (Bool × List String)}
      {log : List (String × Json)} {p : List String}
      {fs : List (String × Json)} {name : String} :
      getPath p L = some (.obj fs) →
      truthyRef fs = false →
      (alookup cfg.sigMap (canonicalStringify (.obj fs)) = some name ∨
        (alookup fs "x-semantic-type" = some (.str name) ∧
          (Json.str name).truthy = true ∧ name ∈ cfg.semNames)) →
      p ∉ cfg.protPaths →
      NStep cfg ⟨L, S, seen, log⟩
        ⟨setPath p L (refObj ("#/components/schemas/" ++ name)), S, seen, log⟩
  | snapRepl {L S : Json} {seen : List (Bool × List String)}
      {log : List (String × Json)} {p : List String}
      {fs : List (String × Json)} {name : String} :
      log ≠ [] →
      getPath p S = some (.obj fs) →
      truthyRef fs = false →
      (alookup cfg.sigMap (canonicalStringify (.obj fs)) = some name ∨
        (alookup fs "x-semantic-type" = some (.str name) ∧
          (Json.str name).truthy = true ∧ name ∈ cfg.semNames)) →
      NStep cfg ⟨L, S, seen, log⟩
        ⟨L, setPath p S (refObj ("#/components/schemas/" ++ name)), seen, log⟩
  | seenAdd {L S : Json} {seen : List (Bool × List String)}
      {log : List (String × Json)} (e : Bool × List String) :
      NStep cfg ⟨L, S, seen, log⟩ ⟨L, S, e :: seen, log⟩
  | logAdd {L S : Json} {seen : List (Bool × List String)}
      {log : List (String × Json)} {r : String} {segs : List String} {v : Json} :
      resolveRefPath S r = .ok (some segs) →
      getPath segs S = some v →
      NStep cfg ⟨L, S, seen, log⟩ ⟨L, S, seen, log ++ [(r, v)]⟩

/-! ## Concrete regression scenarios

Small documents exercising the pipeline end to end, with the value of
every stage recorded as a literal so that the full-run equations reduce
stage by stage. -/

/-- A schema shape shared by two named component schemas. -/
def shp : Json := .obj [("type", .str "object"),
  ("properties", .obj [("opRef", .obj [("type", .str "integer")])])]

/-- Two operations referencing two structurally identical schemas. -/
def rDoc : Json := .obj [
  ("paths", .obj [
    ("c", .obj [("schema", .obj [("$ref", .str "#/components/schemas/A")])]),
    ("d", .obj [("schema", .obj [("$ref", .str "#/components/schemas/B")])])]),
  ("components", .obj [("schemas", .obj [("A", shp), ("B", shp)])])]

def rOpts : BundleOpts :=
  { dereferencePathLocalRefs := false, allowPathLocalLikeRefs := false,
    manualOverrides := [], outputSpec := none, outputMetadata := none }

/-- A named schema C whose structure equals the operation wrapper nodes of
the paths subtree (which themselves contain stable refs to A and B). -/
def cshape : Json := .obj [("s", .obj [("$ref", .str "#/components/schemas/A")])]

def badDoc : Json := .obj [
  ("paths", .obj [
    ("c", .obj [("w", .obj [("s", .obj [("$ref", .str "#/components/schemas/A")])])]),
    ("d", .obj [("w", .obj [("s", .obj [("$ref", .str "#/components/schemas/B")])])])]),
  ("components", .obj [("schemas", .obj [("A", shp), ("B", shp), ("C", cshape)])])]

/-- A path-local ref to a location that does not exist. -/
def c2doc : Json := .obj [
  ("paths", .obj [("p", .obj [("s", .obj [("$ref", .str "#/paths/nowhere")])])]),
  ("components", .obj [("schemas", .obj [])])]

/-- Two path-local refs into the same subtree: resolving the first one
normalizes the target subtree in the snapshot, so the second resolution
reads a mutated value. -/
def c3doc : Json := .obj [
  ("paths", .obj [
    ("p1", .obj [("$ref", .str "#/paths/t")]),
    ("p2", .obj [("$ref", .str "#/paths/t/a")]),
    ("t", .obj [("a", .obj [("type", .str "string")])])]),
  ("components", .obj [("schemas", .obj [("B", .obj [("type", .str "string")])])])]

/-- A path-local ref with a manual override entry whose target also ends
up carrying a stable ref after its own normalization. -/
def c4doc : Json := .obj [
  ("paths", .obj [
    ("p", .obj [("$ref", .str "#/paths/t")]),
    ("t", .obj [("type", .str "string")])]),
  ("components", .obj [("schemas", .obj [("S", .obj [("type", .str "string")])])])]

def c4opts : BundleOpts :=
  { dereferencePathLocalRefs := false, allowPathLocalLikeRefs := false,
    manualOverrides := [("#/paths/t", "O")], outputSpec := none,
    outputMetadata := none }

/-- A surviving path-local $like ref (no LikeFilter component exists, so
the $like short-circuit never fires and the ref cannot normalize). -/
def c5doc : Json := .obj [
  ("paths", .obj [("p", .obj [("f", .obj [("$ref", .str "#/paths/q/properties/$like")])])]),
  ("components", .obj [("schemas", .obj [])])]

def c5opts : BundleOpts :=
  { dereferencePathLocalRefs := false, allowPathLocalLikeRefs := true,
    manualOverrides := [], outputSpec := some "a.json",
    outputMetadata := some "b.json" }

def rDoc1 : Json := .obj [("paths", .obj [("c", .obj [("schema", .obj [("$ref", .str "#/components/schemas/A")])]), ("d", .obj [("schema", .obj [("$ref", .str "#/components/schemas/B")])])]), ("components", .obj [("schemas", .obj [("A", .obj [("type", .str "object"), ("properties", .obj [("opRef", .obj [("type", .str "integer")])])]), ("B", .obj [("type", .str "object"), ("properties", .obj [("opRef", .obj [("type", .str "integer")])])])])])]

def rLive : Json := .obj [("paths", .obj [("c", .obj [("schema", .obj [("$ref", .str "#/components/schemas/A")])]), ("d", .obj [("schema", .obj [("$ref", .str "#/components/schemas/B")])])]), ("components", .obj [("schemas", .obj [("A", .obj [("type", .str "object"), ("properties", .obj [("opRef", .obj [("type", .str "integer")])])]), ("B", .obj [("type", .str "object"), ("properties", .obj [("opRef", .obj [("type", .str "integer")])])])])])]

def rSnap : Json := .obj [("paths", .obj [("c", .obj [("schema", .obj [("$ref", .str "#/components/schemas/A")])]), ("d", .obj [("schema", .obj [("$ref", .str "#/components/schemas/B")])])]), ("components", .obj [("schemas", .obj [("A", .obj [("type", .str "object"), ("properties", .obj [("opRef", .obj [("type", .str "integer")])])]), ("B", .obj [("type", .str "object"), ("properties", .obj [("opRef", .obj [("type", .str "integer")])])])])])]

def rSeen : List (Bool × List String) := [(true, ["components", "schemas", "B", "properties", "opRef"]), (true, ["components", "schemas", "B", "properties"]), (true, ["components", "schemas", "B"]), (true, ["components", "schemas", "A", "properties", "opRef"]), (true, ["components", "schemas", "A", "properties"]), (true, ["components", "schemas", "A"]), (true, ["components", "schemas"]), (true, ["components"]), (true, ["paths", "d", "schema"]), (true, ["paths", "d"]), (true, ["paths", "c", "schema"]), (true, ["paths", "c"]), (true, ["paths"]), (true, [])]

def rLog : List (String × Json) := []

def rRw : Json := .obj [("paths", .obj [("c", .obj [("schema", .obj [("$ref", .str "#/components/schemas/A")])]), ("d", .obj [("schema", .obj [("$ref", .str "#/components/schemas/B")])])]), ("components", .obj [("schemas", .obj [("A", .obj [("type", .str "object"), ("properties", .obj [("opRef", .obj [("type", .str "integer")])])]), ("B", .obj [("type", .str "object"), ("properties", .obj [("opRef", .obj [("type", .str "integer")])])])])])]

def rPro : Json := .obj [("paths", .obj [("c", .obj [("schema", .obj [("$ref", .str "#/components/schemas/A")])]), ("d", .obj [("schema", .obj [("$ref", .str "#/components/schemas/B")])])]), ("components", .obj [("schemas", .obj [("A", .obj [("type", .str "object"), ("properties", .obj [("opRef", .obj [("type", .str "integer")])])]), ("B", .obj [("type", .str "object"), ("properties", .obj [("opRef", .obj [("type", .str "integer")])])])])])]

def rDeref : Json := .obj [("paths", .obj [("c", .obj [("schema", .obj [("$ref", .str "#/components/schemas/A")])]), ("d", .obj [("schema", .obj [("$ref", .str "#/components/schemas/B")])])]), ("components", .obj [("schemas", .obj [("A", .obj [("type", .str "object"), ("properties", .obj [("opRef", .obj [("type", .str "integer")])])]), ("B", .obj [("type", .str "object"), ("properties", .obj [("opRef", .obj [("type", .str "integer")])])])])])]

def rDd1 : Json := .obj [("paths", .obj [("c", .obj [("schema", .obj [("$ref", .str "#/components/schemas/A")])]), ("d", .obj [("schema", .obj [("$ref", .str "#/components/schemas/B")])])]), ("components", .obj [("schemas", .obj [("A", .obj [("type", .str "object"), ("properties", .obj [("opRef", .obj [("type", .str "integer")])])]), ("B", .obj [("type", .str "object"), ("properties", .obj [("opRef", .obj [("type", .str "integer")])])])])])]

def badDoc1 : Json := .obj [("paths", .obj [("c", .obj [("w", .obj [("s", .obj [("$ref", .str "#/components/schemas/A")])])]), ("d", .obj [("w", .obj [("s", .obj [("$ref", .str "#/components/schemas/B")])])])]), ("components", .obj [("schemas", .obj [("A", .obj [("type", .str "object"), ("properties", .obj [("opRef", .obj [("type", .str "integer")])])]), ("B", .obj [("type", .str "object"), ("properties", .obj [("opRef", .obj [("type", .str "integer")])])]), ("C", .obj [("s", .obj [("$ref", .str "#/components/schemas/A")])])])])]

def badLive : Json := .obj [("paths", .obj [("c", .obj [("w", .obj [("$ref", .str "#/components/schemas/C")])]), ("d", .obj [("w", .obj [("s", .obj [("$ref", .str "#/components/schemas/B")])])])]), ("components", .obj [("schemas", .obj [("A", .obj [("type", .str "object"), ("properties", .obj [("opRef", .obj [("type", .str "integer")])])]), ("B", .obj [("type", .str "object"), ("properties", .obj [("opRef", .obj [("type", .str "integer")])])]), ("C", .obj [("s", .obj [("$ref", .str "#/components/schemas/A")])])])])]

def badSnap : Json := .obj [("paths", .obj [("c", .obj [("w", .obj [("s", .obj [("$ref", .str "#/components/schemas/A")])])]), ("d", .obj [("w", .obj [("s", .obj [("$ref", .str "#/components/schemas/B")])])])]), ("components", .obj [("schemas", .obj [("A", .obj [("type", .str "object"), ("properties", .obj [("opRef", .obj [("type", .str "integer")])])]), ("B", .obj [("type", .str "object"), ("properties", .obj [("opRef", .obj [("type", .str "integer")])])]), ("C", .obj [("s", .obj [("$ref", .str "#/components/schemas/A")])])])])]

def badSeen : List (Bool × List String) := [(true, ["components", "schemas", "C", "s"]), (true, ["components", "schemas", "C"]), (true, ["components", "schemas", "B", "properties", "opRef"]), (true, ["components", "schemas", "B", "properties"]), (true, ["components", "schemas", "B"]), (true, ["components", "schemas", "A", "properties", "opRef"]), (true, ["components", "schemas", "A", "properties"]), (true, ["components", "schemas", "A"]), (true, ["components", "schemas"]), (true, ["components"]), (true, ["paths", "d", "w", "s"]), (true, ["paths", "d", "w"]), (true, ["paths", "d"]), (true, ["paths", "c", "w", "s"]), (true, ["paths", "c", "w"]), (true, ["paths", "c"]), (true, ["paths"]), (true, [])]

def badLog : List (String × Json) := []

def badRw : Json := .obj [("paths", .obj [("c", .obj [("w", .obj [("$ref", .str "#/components/schemas/C")])]), ("d", .obj [("w", .obj [("s", .obj [("$ref", .str "#/components/schemas/B")])])])]), ("components", .obj [("schemas", .obj [("A", .obj [("type", .str "object"), ("properties", .obj [("opRef", .obj [("type", .str "integer")])])]), ("B", .obj [("type", .str "object"), ("properties", .obj [("opRef", .obj [("type", .str "integer")])])]), ("C", .obj [("s", .obj [("$ref", .str "#/components/schemas/A")])])])])]

def badPro : Json := .obj [("paths", .obj [("c", .obj [("w", .obj [("$ref", .str "#/components/schemas/C")])]), ("d", .obj [("w", .obj [("s", .obj [("$ref", .str "#/components/schemas/B")])])])]), ("components", .obj [("schemas", .obj [("A", .obj [("type", .str "object"), ("properties", .obj [("opRef", .obj [("type", .str "integer")])])]), ("B", .obj [("type", .str "object"), ("properties", .obj [("opRef", .obj [("type", .str "integer")])])]), ("C", .obj [("s", .obj [("$ref", .str "#/components/schemas/A")])])])])]

def badDeref : Json := .obj [("paths", .obj [("c", .obj [("w", .obj [("$ref", .str "#/components/schemas/C")])]), ("d", .obj [("w", .obj [("s", .obj [("$ref", .str "#/components/schemas/B")])])])]), ("components", .obj [("schemas", .obj [("A", .obj [("type", .str "object"), ("properties", .obj [("opRef", .obj [("type", .str "integer")])])]), ("B", .obj [("type", .str "object"), ("properties", .obj [("opRef", .obj [("type", .str "integer")])])]), ("C", .obj [("s", .obj [("$ref", .str "#/components/schemas/A")])])])])]

def badDd1 : Json := .obj [("paths", .obj [("c", .obj [("w", .obj [("$ref", .str "#/components/schemas/C")])]), ("d", .obj [("w", .obj [("s", .obj [("$ref", .str "#/components/schemas/B")])])])]), ("components", .obj [("schemas", .obj [("A", .obj [("type", .str "object"), ("properties", .obj [("opRef", .obj [("type", .str "integer")])])]), ("B", .obj [("type", .str "object"), ("properties", .obj [("opRef", .obj [("type", .str "integer")])])]), ("C", .obj [("s", .obj [("$ref", .str "#/components/schemas/A")])])])])]

def c2Doc1 : Json := .obj [("paths", .obj [("p", .obj [("s", .obj [("$ref", .str "#/paths/nowhere")])])]), ("components", .obj [("schemas", .obj [])])]

def c2Live : Json := .obj [("paths", .obj [("p", .obj [("s", .obj [("$ref", .str "#/paths/nowhere")])])]), ("components", .obj [("schemas", .obj [])])]

def c2Snap : Json := .obj [("paths", .obj [("p", .obj [("s", .obj [("$ref", .str "#/paths/nowhere")])])]), ("components", .obj [("schemas", .obj [])])]

def c2Seen : List (Bool × List String) := [(true, ["components", "schemas"]), (true, ["components"]), (true, ["paths", "p", "s"]), (true, ["paths", "p"]), (true, ["paths"]), (true, [])]

def c2Log : List (String × Json) := []

def c2Rw : Json := .obj [("paths", .obj [("p", .obj [("s", .obj [("$ref", .str "#/paths/nowhere")])])]), ("components", .obj [("schemas", .obj [])])]

def c2Pro : Json := .obj [("paths", .obj [("p", .obj [("s", .obj [("$ref", .str "#/paths/nowhere")])])]), ("components", .obj [("schemas", .obj [])])]

def c2Deref : Json := .obj [("paths", .obj [("p", .obj [("s", .obj [("$ref", .str "#/paths/nowhere")])])]), ("components", .obj [("schemas", .obj [])])]

def c2Dd1 : Json := .obj [("paths", .obj [("p", .obj [("s", .obj [("$ref", .str "#/paths/nowhere")])])]), ("components", .obj [("schemas", .obj [])])]

def c3Doc1 : Json := .obj [("paths", .obj [("p1", .obj [("$ref", .str "#/paths/t")]), ("p2", .obj [("$ref", .str "#/paths/t/a")]), ("t", .obj [("a", .obj [("type", .str "string")])])]), ("components", .obj [("schemas", .obj [("B", .obj [("type", .str "string")])])])]

def c3Live : Json := .obj [("paths", .obj [("p1", .obj [("$ref", .str "#/paths/t")]), ("p2", .obj [("$ref", .str "#/components/schemas/B")]), ("t", .obj [("a", .obj [("$ref", .str "#/components/schemas/B")])])]), ("components", .obj [("schemas", .obj [("B", .obj [("type", .str "string")])])])]

def c3Snap : Json := .obj [("paths", .obj [("p1", .obj [("$ref", .str "#/paths/t")]), ("p2", .obj [("$ref", .str "#/paths/t/a")]), ("t", .obj [("a", .obj [("$ref", .str "#/components/schemas/B")])])]), ("components", .obj [("schemas", .obj [("B", .obj [("type", .str "string")])])])]

def c3Seen : List (Bool × List String) := [(true, ["components", "schemas", "B"]), (true, ["components", "schemas"]), (true, ["components"]), (true, ["paths", "t", "a"]), (true, ["paths", "t"]), (true, ["paths", "p2"]), (false, ["paths", "t", "a"]), (false, ["paths", "t"]), (true, ["paths", "p1"]), (true, ["paths"]), (true, [])]

def c3Log : List (String × Json) := [("#/paths/t", .obj [("a", .obj [("type", .str "string")])]), ("#/paths/t/a", .obj [("$ref", .str "#/components/schemas/B")])]

def c3Rw : Json := .obj [("paths", .obj [("p1", .obj [("$ref", .str "#/paths/t")]), ("p2", .obj [("$ref", .str "#/components/schemas/B")]), ("t", .obj [("a", .obj [("$ref", .str "#/components/schemas/B")])])]), ("components", .obj [("schemas", .obj [("B", .obj [("type", .str "string")])])])]

def c3Pro : Json := .obj [("paths", .obj [("p1", .obj [("$ref", .str "#/paths/t")]), ("p2", .obj [("$ref", .str "#/components/schemas/B")]), ("t", .obj [("a", .obj [("$ref", .str "#/components/schemas/B")])])]), ("components", .obj [("schemas", .obj [("B", .obj [("type", .str "string")])])])]

def c3Deref : Json := .obj [("paths", .obj [("p1", .obj [("$ref", .str "#/paths/t")]), ("p2", .obj [("$ref", .str "#/components/schemas/B")]), ("t", .obj [("a", .obj [("$ref", .str "#/components/schemas/B")])])]), ("components", .obj [("schemas", .obj [("B", .obj [("type", .str "string")])])])]

def c3Dd1 : Json := .obj [("paths", .obj [("p1", .obj [("$ref", .str "#/paths/t")]), ("p2", .obj [("$ref", .str "#/components/schemas/B")]), ("t", .obj [("a", .obj [("$ref", .str "#/components/schemas/B")])])]), ("components", .obj [("schemas", .obj [("B", .obj [("type", .str "string")])])])]

def c4Doc1 : Json := .obj [("paths", .obj [("p", .obj [("$ref", .str "#/paths/t")]), ("t", .obj [("type", .str "string")])]), ("components", .obj [("schemas", .obj [("S", .obj [("type", .str "string")])])])]

def c4Live : Json := .obj [("paths", .obj [("p", .obj [("$ref", .str "#/components/schemas/S")]), ("t", .obj [("$ref", .str "#/components/schemas/S")])]), ("components", .obj [("schemas", .obj [("S", .obj [("type", .str "string")])])])]

def c4Snap : Json := .obj [("paths", .obj [("p", .obj [("$ref", .str "#/paths/t")]), ("t", .obj [("$ref", .str "#/components/schemas/S")])]), ("components", .obj [("schemas", .obj [("S", .obj [("type", .str "string")])])])]

def c4Seen : List (Bool × List String) := [(true, ["components", "schemas", "S"]), (true, ["components", "schemas"]), (true, ["components"]), (true, ["paths", "t"]), (false, ["paths", "t"]), (true, ["paths", "p"]), (true, ["paths"]), (true, [])]

def c4Log : List (String × Json) := [("#/paths/t", .obj [("type", .str "string")])]

def c4Rw : Json := .obj [("paths", .obj [("p", .obj [("$ref", .str "#/components/schemas/S")]), ("t", .obj [("$ref", .str "#/components/schemas/S")])]), ("components", .obj [("schemas", .obj [("S", .obj [("type", .str "string")])])])]

def c4Pro : Json := .obj [("paths", .obj [("p", .obj [("$ref", .str "#/components/schemas/S")]), ("t", .obj [("$ref", .str "#/components/schemas/S")])]), ("components", .obj [("schemas", .obj [("S", .obj [("type", .str "string")])])])]

def c4Deref : Json := .obj [("paths", .obj [("p", .obj [("$ref", .str "#/components/schemas/S")]), ("t", .obj [("$ref", .str "#/components/schemas/S")])]), ("components", .obj [("schemas", .obj [("S", .obj [("type", .str "string")])])])]

def c4Dd1 : Json := .obj [("paths", .obj [("p", .obj [("$ref", .str "#/components/schemas/S")]), ("t", .obj [("$ref", .str "#/components/schemas/S")])]), ("components", .obj [("schemas", .obj [("S", .obj [("type", .str "string")])])])]

def c5Doc1 : Json := .obj [("paths", .obj [("p", .obj [("f", .obj [("$ref", .str "#/paths/q/properties/$like")])])]), ("components", .obj [("schemas", .obj [])])]

def c5Live : Json := .obj [("paths", .obj [("p", .obj [("f", .obj [("$ref", .str "#/paths/q/properties/$like")])])]), ("components", .obj [("schemas", .obj [])])]

def c5Snap : Json := .obj [("paths", .obj [("p", .obj [("f", .obj [("$ref", .str "#/paths/q/properties/$like")])])]), ("components", .obj [("schemas", .obj [])])]

def c5Seen : List (Bool × List String) := [(true, ["components", "schemas"]), (true, ["components"]), (true, ["paths", "p", "f"]), (true, ["paths", "p"]), (true, ["paths"]), (true, [])]

def c5Log : List (String × Json) := []

def c5Rw : Json := .obj [("paths", .obj [("p", .obj [("f", .obj [("$ref", .str "#/paths/q/properties/$like")])])]), ("components", .obj [("schemas", .obj [])])]

def c5Pro : Json := .obj [("paths", .obj [("p", .obj [("f", .obj [("$ref", .str "#/paths/q/properties/$like")])])]), ("components", .obj [("schemas", .obj [])])]

def c5Deref : Json := .obj [("paths", .obj [("p", .obj [("f", .obj [("$ref", .str "#/paths/q/properties/$like")])])]), ("components", .obj [("schemas", .obj [])])]

def c5Dd1 : Json := .obj [("paths", .obj [("p", .obj [("f", .obj [("$ref", .str "#/paths/q/properties/$like")])])]), ("components", .obj [("schemas", .obj [])])]

/-- The manual-override / signature decision shared by the rewrite tail:
override by original pointer string first, then exact canonical signature
of the resolved target. -/
def overrideSigDecision (cfg : NCfg) (r : String) (resolvedNode : Json) :
    Option String :=
  match alookup cfg.overrides r with
  | some name => some ("#/components/schemas/" ++ name)
  | none =>
    match alookup cfg.sigMap (canonicalStringify resolvedNode) with
    | some name => some ("#/components/schemas/" ++ name)
    | none => none

/-- The rewrite decision safeNormalize takes for a resolved transient
pointer, as a function of the resolved target value: adopt an
already-stable target reference, else manual override, else signature
match, else leave the pointer unchanged. -/
def codeDecision (cfg : NCfg) (r : String) (resolvedNode : Json) :
    Option String :=
  match resolvedNode with
  | .obj rfs =>
    match alookup rfs "$ref" with
    | some (.str s) =>
      if strStarts s "#/components/schemas/" then some s
      else overrideSigDecision cfg r resolvedNode
    | _ => overrideSigDecision cfg r resolvedNode
  | _ => overrideSigDecision cfg r resolvedNode

/-- Modelled from the spec: the priority order the specification asserts
for one transient pointer, decided against the resolved target value
which, per the specification's snapshot-immutability story, is the value
the pre-normalization document holds at the pointer: the pattern-match
filter shape first, then adoption of an already-stable target reference,
then the manual override table keyed by the exact original pointer
string, then the exact canonical-signature match; none leaves the
pointer unchanged. -/
def specPriorityDecision (cfg : NCfg) (r : String) (target : Option Json) :
    Option String :=
  if likeRefTest cfg r then some "#/components/schemas/LikeFilter"
  else
    match (match target with
           | some (.obj rfs) =>
             (match alookup rfs "$ref" with
              | some (.str s) =>
                if strStarts s "#/components/schemas/" then some s else none
              | _ => none)
           | _ => none) with
    | some s => some s
    | none =>
      match alookup cfg.overrides r with
      | some name => some ("#/components/schemas/" ++ name)
      | none =>
        match target with
        | some tv =>
          (match alookup cfg.sigMap (canonicalStringify tv) with
           | some name => some ("#/components/schemas/" ++ name)
           | none => none)
        | none => none

/-- A document with a $like-shaped transient pointer and a truthy
LikeFilter component, exercising the short-circuit. -/
def likeDoc : Json := .obj [
  ("paths", .obj [("p", .obj [("f", .obj [("$ref", .str "#/paths/x/properties/$like")])])]),
  ("components", .obj [("schemas", .obj [("LikeFilter", .obj [("type", .str "object")])])])]

/-! ## A cyclic path-local ref and the dereference pass -/

/-- A node referencing its own ancestor inside the paths subtree. -/
def refNode : Json := .obj [("$ref", .str "#/paths/a")]

/-- The cyclic operation: a container whose child is the cyclic ref. -/
def c6S : Json := .obj [("x", refNode)]

/-- The x-nesting the dereference pass keeps building: nest 0 is the
operation itself, and every replacement wraps one more x level. -/
def nest : Nat → Json
  | 0 => c6S
  | k + 1 => .obj [("x", nest k)]

/-- The cyclic document. -/
def c6doc : Json := .obj [("paths", .obj [("a", c6S)]),
  ("components", .obj [("schemas", .obj [])])]

/-- The document after k replacements. -/
def c6tree (k : Nat) : Json := .obj [("paths", .obj [("a", nest k)]),
  ("components", .obj [("schemas", .obj [])])]

/-- The path the machine is about to pop after k replacements. -/
def c6p (k : Nat) : List String := ["paths", "a"] ++ List.replicate k "x"

/-- The visited set after processing the prefix and j cycle stages. -/
def c6seen : Nat → List (List String)
  | 0 => [["paths", "a"], ["paths"], ["components", "schemas"], ["components"], []]
  | j + 1 => c6p (j + 1) :: c6seen j

/-! ## Properties and theorems -/

theorem lexLe_total (xs ys : List Char) : lexLe xs ys = true ∨ lexLe ys xs = true := by
  induction xs generalizing ys with
  | nil => left; rfl
  | cons a as ih =>
    cases ys with
    | nil => right; rfl
    | cons b bs =>
      rcases Nat.lt_trichotomy a.toNat b.toNat with h | h | h
      · left; simp [lexLe, h]
      · have hne : ¬ a.toNat < b.toNat := by omega
        have hne2 : ¬ b.toNat < a.toNat := by omega
        rcases ih bs with h2 | h2
        · left; simp [lexLe, hne, hne2, h2]
        · right; simp [lexLe, hne, hne2, h2]
      · right; simp [lexLe, h]

theorem charEqOfToNat {a b : Char} (h : a.toNat = b.toNat) : a = b :=
  Char.eq_of_val_eq (UInt32.ext h)

theorem lexLe_antisymm (xs ys : List Char) (h1 : lexLe xs ys = true)
    (h2 : lexLe ys xs = true) : xs = ys := by
  induction xs generalizing ys with
  | nil =>
    cases ys with
    | nil => rfl
    | cons b bs => simp [lexLe] at h2
  | cons a as ih =>
    cases ys with
    | nil => simp [lexLe] at h1
    | cons b bs =>
      rcases Nat.lt_trichotomy a.toNat b.toNat with h | h | h
      · have hx : ¬ b.toNat < a.toNat := by omega
        simp [lexLe, h, hx] at h2
      · have hab : a = b := charEqOfToNat h
        subst hab
        have hne : ¬ a.toNat < a.toNat := by omega
        simp [lexLe, hne] at h1 h2
        rw [ih bs h1 h2]
      · have hx : ¬ a.toNat < b.toNat := by omega
        simp [lexLe, h, hx] at h1

theorem lexLe_trans (xs ys zs : List Char) (h1 : lexLe xs ys = true)
    (h2 : lexLe ys zs = true) : lexLe xs zs = true := by
  induction xs generalizing ys zs with
  | nil => rfl
  | cons a as ih =>
    cases ys with
    | nil => simp [lexLe] at h1
    | cons b bs =>
      cases zs with
      | nil => simp [lexLe] at h2
      | cons c cs =>
        rcases Nat.lt_trichotomy a.toNat b.toNat with hab | hab | hab
        · rcases Nat.lt_trichotomy b.toNat c.toNat with hbc | hbc | hbc
          · have hac : a.toNat < c.toNat := by omega
            simp [lexLe, hac]
          · have hac : a.toNat < c.toNat := by omega
            simp [lexLe, hac]
          · have hx : ¬ b.toNat < c.toNat := by omega
            simp [lexLe, hx, hbc] at h2
        · have hab' : a = b := charEqOfToNat hab
          subst hab'
          have hne : ¬ a.toNat < a.toNat := by omega
          simp [lexLe, hne] at h1
          rcases Nat.lt_trichotomy a.toNat c.toNat with hac | hac | hac
          · simp [lexLe, hac]
          · have hne2 : ¬ a.toNat < c.toNat := by omega
            have hne3 : ¬ c.toNat < a.toNat := by omega
            simp [lexLe, hne2, hne3] at h2 ⊢
            exact ih bs cs h1 h2
          · have hx : ¬ a.toNat < c.toNat := by omega
            simp [lexLe, hx, hac] at h2
        · have hx : ¬ a.toNat < b.toNat := by omega
          simp [lexLe, hx, hab] at h1

theorem strLe_total (s t : String) : strLe s t = true ∨ strLe t s = true :=
  lexLe_total s.data t.data

theorem strLe_antisymm (s t : String) (h1 : strLe s t = true)
    (h2 : strLe t s = true) : s = t := by
  cases s with
  | mk ds =>
    cases t with
    | mk dt =>
      have := lexLe_antisymm ds dt h1 h2
      simp [this]

theorem strLe_trans (s t u : String) (h1 : strLe s t = true)
    (h2 : strLe t u = true) : strLe s u = true :=
  lexLe_trans s.data t.data u.data h1 h2

instance : IsTotal (String × Json) fieldLe :=
  ⟨fun a b => strLe_total a.1 b.1⟩

instance : IsTrans (String × Json) fieldLe :=
  ⟨fun a b c h1 h2 => strLe_trans a.1 b.1 c.1 h1 h2⟩

instance : IsTotal String pathLe := ⟨strLe_total⟩

instance : IsTrans String pathLe := ⟨strLe_trans⟩

instance : IsAntisymm String pathLe := ⟨strLe_antisymm⟩

/-- First-match association lookup is invariant under permutation when the
keys are duplicate free. -/
theorem alookup_perm {α : Type} {l1 l2 : List (String × α)} (hp : l1.Perm l2)
    (hn : (l1.map Prod.fst).Nodup) (p : String) : alookup l1 p = alookup l2 p := by
  induction hp with
  | nil => rfl
  | cons x l ih =>
    cases x with
    | mk k v =>
      simp only [alookup]
      split
      · rfl
      · exact ih (by simpa using (List.nodup_cons.mp (by simpa using hn)).2)
  | swap x y l =>
    cases x with
    | mk k1 v1 =>
      cases y with
      | mk k2 v2 =>
        simp only [alookup]
        have hne : k2 ≠ k1 := by
          have := hn
          simp only [List.map_cons, List.nodup_cons] at this
          intro he
          exact this.1 (by simp [he])
        by_cases h1 : k1 = p <;> by_cases h2 : k2 = p <;> simp [h1, h2]
        exact absurd (h2.trans h1.symm) hne
  | trans h12 h23 ih12 ih23 =>
    have hnmid : _ := ((h12.map Prod.fst).nodup_iff).mp hn
    exact (ih12 hn).trans (ih23 hnmid)

instance : IsAntisymm (String × Json) fieldLt :=
  ⟨fun a b h1 h2 => absurd (strLe_antisymm a.1 b.1 h1.1 h2.1) h1.2⟩

theorem sorted_fieldLt_of_sorted {l : List (String × Json)}
    (hs : List.Sorted fieldLe l) (hn : (l.map Prod.fst).Nodup) :
    List.Sorted fieldLt l := by
  have hne : List.Pairwise (fun a b : String × Json => a.1 ≠ b.1) l :=
    (List.pairwise_map).mp hn
  exact (hs.and hne)

/-- Sorting two permuted field lists with duplicate-free keys gives the
same list. -/
theorem insertionSort_perm_eq {l1 l2 : List (String × Json)}
    (hp : l1.Perm l2) (hn : (l1.map Prod.fst).Nodup) :
    List.insertionSort fieldLe l1 = List.insertionSort fieldLe l2 := by
  have p1 := List.perm_insertionSort fieldLe l1
  have p2 := List.perm_insertionSort fieldLe l2
  have hp' : (List.insertionSort fieldLe l1).Perm (List.insertionSort fieldLe l2) :=
    (p1.trans hp).trans p2.symm
  have hn1 : ((List.insertionSort fieldLe l1).map Prod.fst).Nodup :=
    ((p1.map Prod.fst).nodup_iff).mpr hn
  have hn2 : ((List.insertionSort fieldLe l2).map Prod.fst).Nodup :=
    ((hp'.map Prod.fst).nodup_iff).mp hn1
  exact List.eq_of_perm_of_sorted hp'
    (sorted_fieldLt_of_sorted (List.sorted_insertionSort fieldLe l1) hn1)
    (sorted_fieldLt_of_sorted (List.sorted_insertionSort fieldLe l2) hn2)

theorem sortKeysFields_eq_map (l : List (String × Json)) :
    sortKeysFields l = l.map (fun kv => (kv.1, sortKeys kv.2)) := by
  induction l with
  | nil => rfl
  | cons kv rest ih =>
    cases kv with
    | mk k v => simp [sortKeysFields, ih]

theorem keyPerm_sortKeys {v w : Json} (h : KeyPerm v w) : sortKeys v = sortKeys w := by
  refine @KeyPerm.rec
    (fun v w _ => sortKeys v = sortKeys w)
    (fun xs ys _ => sortKeysList xs = sortKeysList ys)
    (fun fs gs _ => sortKeysFields fs = sortKeysFields gs)
    ?_ ?_ ?_ ?_ ?_ ?_ ?_ ?_ ?_ ?_ ?_ ?_ v w h
  · rfl
  · intro b; rfl
  · intro n; rfl
  · intro s; rfl
  · intro xs ys hl ih
    simp only [sortKeys]
    rw [ih]
  · intro fs gs hf ih
    simp only [sortKeys]
    rw [ih]
  · intro fs gs hp hn
    simp only [sortKeys]
    rw [sortKeysFields_eq_map, sortKeysFields_eq_map]
    have hp2 := hp.map (fun kv : String × Json => (kv.1, sortKeys kv.2))
    have hn2 : ((fs.map (fun kv : String × Json => (kv.1, sortKeys kv.2))).map Prod.fst).Nodup := by
      rw [List.map_map]
      exact hn
    rw [insertionSort_perm_eq hp2 hn2]
  · intro a b c h1 h2 ih1 ih2
    exact ih1.trans ih2
  · rfl
  · intro x y xs ys h1 h2 ih1 ih2
    simp only [sortKeysList]
    rw [ih1, ih2]
  · rfl
  · intro k vv ww fs gs h1 h2 ih1 ih2
    simp only [sortKeysFields]
    rw [ih1, ih2]

theorem stripMetadataFields_eq (l : List (String × Json)) :
    stripMetadataFields l =
      (l.filter (fun kv => ¬ (kv.1 = "description" ∨ kv.1 = "title"))).map
        (fun kv => (kv.1, stripMetadata kv.2)) := by
  induction l with
  | nil => rfl
  | cons kv rest ih =>
    cases kv with
    | mk k v =>
      by_cases hk : k = "description" ∨ k = "title"
      · simp [stripMetadataFields, hk, ih, List.filter]
      · simp [stripMetadataFields, hk, ih, List.filter]

theorem keyPerm_strip {v w : Json} (h : KeyPerm v w) :
    KeyPerm (stripMetadata v) (stripMetadata w) := by
  refine @KeyPerm.rec
    (fun v w _ => KeyPerm (stripMetadata v) (stripMetadata w))
    (fun xs ys _ => KeyPermL (stripMetadataList xs) (stripMetadataList ys))
    (fun fs gs _ => KeyPermF (stripMetadataFields fs) (stripMetadataFields gs))
    ?_ ?_ ?_ ?_ ?_ ?_ ?_ ?_ ?_ ?_ ?_ ?_ v w h
  · exact .null
  · intro b; exact .bool b
  · intro n; exact .num n
  · intro s; exact .str s
  · intro xs ys hl ih
    exact .arr ih
  · intro fs gs hf ih
    exact .obj ih
  · intro fs gs hp hn
    simp only [stripMetadata]
    rw [stripMetadataFields_eq, stripMetadataFields_eq]
    refine KeyPerm.objPerm ((hp.filter _).map _) ?_
    rw [List.map_map]
    have hsub := (List.filter_sublist
      (p := fun kv : String × Json => decide (¬ (kv.1 = "description" ∨ kv.1 = "title"))) fs).map Prod.fst
    have : (Prod.fst ∘ fun kv : String × Json => (kv.1, stripMetadata kv.2)) = Prod.fst := by
      funext kv; rfl
    rw [this]
    exact hn.sublist hsub
  · intro a b c h1 h2 ih1 ih2
    exact .trans ih1 ih2
  · exact .nil
  · intro x y xs ys h1 h2 ih1 ih2
    exact .cons ih1 ih2
  · exact .nil
  · intro k vv ww fs gs h1 h2 ih1 ih2
    simp only [stripMetadataFields]
    split
    · exact ih2
    · exact .cons ih1 ih2

/-- A ref without a percent sign is returned unchanged by the decoder. -/
theorem normalizeInternalRef_no_percent (s : String)
    (h : strHasChar s '%' = false) : normalizeInternalRef s = s := by
  unfold normalizeInternalRef
  rw [h]
  simp

/-! ## Claims C7 to C10 -/

/-- Claim C7, as frozen, fails: two arrays holding the same elements in
different orders need not produce different canonical strings.  The arrays
[A, B] and [B, A], where A and B are the same object written with its two
keys in opposite orders, are distinct lists holding the same elements in
swapped order, yet canonicalStringify (and structuralStringify) agree on
them, because objects are canonicalized order-insensitively. -/
theorem C7_counterexample :
    ([Json.obj [("a", Json.num 1), ("b", Json.num 2)],
      Json.obj [("b", Json.num 2), ("a", Json.num 1)]] ≠
     [Json.obj [("b", Json.num 2), ("a", Json.num 1)],
      Json.obj [("a", Json.num 1), ("b", Json.num 2)]]) ∧
    List.Perm
      [Json.obj [("a", Json.num 1), ("b", Json.num 2)],
       Json.obj [("b", Json.num 2), ("a", Json.num 1)]]
      [Json.obj [("b", Json.num 2), ("a", Json.num 1)],
       Json.obj [("a", Json.num 1), ("b", Json.num 2)]] ∧
    canonicalStringify (Json.arr
      [Json.obj [("a", Json.num 1), ("b", Json.num 2)],
       Json.obj [("b", Json.num 2), ("a", Json.num 1)]]) =
    canonicalStringify (Json.arr
      [Json.obj [("b", Json.num 2), ("a", Json.num 1)],
       Json.obj [("a", Json.num 1), ("b", Json.num 2)]]) ∧
    structuralStringify (Json.arr
      [Json.obj [("a", Json.num 1), ("b", Json.num 2)],
       Json.obj [("b", Json.num 2), ("a", Json.num 1)]]) =
    structuralStringify (Json.arr
      [Json.obj [("b", Json.num 2), ("a", Json.num 1)],
       Json.obj [("a", Json.num 1), ("b", Json.num 2)]]) := by
  refine ⟨?_, ?_, rfl, rfl⟩
  · intro h
    simp only [List.cons.injEq, Json.obj.injEq, Prod.mk.injEq] at h
    have := h.1.1.1
    exact absurd this (by decide)
  · exact List.Perm.swap _ _ _

/-- Claim C7 (amended): canonicalStringify and structuralStringify return
identical strings on values equal up to reordering of (duplicate-free)
object keys at any depth; arrays are order-sensitive in that element order
is preserved, so arrays of elements with distinct canonical forms in
different orders produce different strings (for example [1,2] versus
[2,1]) — but reordering elements that are themselves equal up to key
reordering does not change the canonical string.  Both functions are pure
by construction. -/
theorem C7_theorem :
    (∀ v w : Json, KeyPerm v w →
      canonicalStringify v = canonicalStringify w ∧
      structuralStringify v = structuralStringify w) ∧
    canonicalStringify (Json.arr [Json.num 1, Json.num 2]) ≠
      canonicalStringify (Json.arr [Json.num 2, Json.num 1]) ∧
    structuralStringify (Json.arr [Json.num 1, Json.num 2]) ≠
      structuralStringify (Json.arr [Json.num 2, Json.num 1]) := by
  refine ⟨fun v w h => ⟨?_, ?_⟩, by decide, by decide⟩
  · unfold canonicalStringify
    rw [keyPerm_sortKeys h]
  · unfold structuralStringify
    rw [keyPerm_sortKeys (keyPerm_strip h)]

/-- Claim C7 witness: the invariance applied to one concrete key-reordered
pair of objects. -/
theorem C7_witness :
    canonicalStringify (Json.obj [("z", Json.num 1), ("a", Json.num 2)]) =
      canonicalStringify (Json.obj [("a", Json.num 2), ("z", Json.num 1)]) ∧
    structuralStringify (Json.obj [("z", Json.num 1), ("a", Json.num 2)]) =
      structuralStringify (Json.obj [("a", Json.num 2), ("z", Json.num 1)]) :=
  C7_theorem.1 _ _
    (KeyPerm.objPerm (List.Perm.swap ("a", Json.num 2) ("z", Json.num 1) [])
      (by decide))

/-- Claim C8, as frozen, fails: normalizeInternalRef is not idempotent on
every ref.  One call on a double-encoded pointer removes exactly one
encoding level, so a second call decodes further. -/
theorem C8_counterexample :
    normalizeInternalRef "#/a/%2524like" = "#/a/%24like" ∧
    normalizeInternalRef (normalizeInternalRef "#/a/%2524like") = "#/a/$like" ∧
    normalizeInternalRef (normalizeInternalRef "#/a/%2524like") ≠
      normalizeInternalRef "#/a/%2524like" := by
  exact ⟨rfl, rfl, by decide⟩

/-- Claim C8 (amended): a single normalizeInternalRef call removes exactly
one percent-encoding level (witnessed on a double-encoded pointer), and
the function is idempotent on every ref whose decoded form carries no
remaining percent sign — in particular decoding an already fully decoded
pointer returns it unchanged. -/
theorem C8_theorem :
    (∀ r : String, strHasChar (normalizeInternalRef r) '%' = false →
      normalizeInternalRef (normalizeInternalRef r) = normalizeInternalRef r) ∧
    normalizeInternalRef "#/paths/%257Bid%257D" = "#/paths/%7Bid%7D" ∧
    normalizeInternalRef "#/paths/%7Bid%7D" = "#/paths/\x7bid\x7d" := by
  refine ⟨fun r h => ?_, rfl, rfl⟩
  exact normalizeInternalRef_no_percent _ h

/-- Claim C8 witness: idempotence applied to one decoded pointer. -/
theorem C8_witness :
    strHasChar (normalizeInternalRef "#/paths/foo/$like") '%' = false ∧
    normalizeInternalRef (normalizeInternalRef "#/paths/foo/$like") =
      normalizeInternalRef "#/paths/foo/$like" :=
  ⟨by decide, C8_theorem.1 "#/paths/foo/$like" (by decide)⟩

/-- Claim C9, as frozen, fails: resolveInternalRef can throw.  A pointer
segment with a malformed percent escape makes jsonPointerDecode call
decodeURIComponent, whose URIError propagates out of resolveInternalRef
(the source has no try/catch there).  The segment "%" against any object
root is such an input. -/
theorem C9_counterexample :
    resolveInternalRef (Json.obj []) "#/%" = .error () := rfl

/-- Claim C9 (amended): resolveInternalRef never throws provided every
pointer segment decodes (no malformed percent escape); under that
proviso it always returns an ok outcome — the addressed value, or the
undefined outcome when a segment is absent or the current value is not a
container.  With a malformed escape it raises instead. -/
theorem C9_theorem (root : Json) (ref : String)
    (h : ∀ seg ∈ strSplit (strDrop ref 2) '/', (jsonPointerDecode seg).isSome) :
    ∃ r, resolveInternalRef root ref = .ok r := by
  have walk : ∀ (segs : List String) (cur : Json),
      (∀ seg ∈ segs, (jsonPointerDecode seg).isSome) →
      ∃ r, resolveSegs segs cur = .ok r := by
    intro segs
    induction segs with
    | nil => exact fun cur _ => ⟨some cur, rfl⟩
    | cons seg rest ih =>
      intro cur hh
      simp only [resolveSegs]
      split
      · have hs := hh seg (List.mem_cons_self _ _)
        match hd : jsonPointerDecode seg with
        | none => rw [hd] at hs; simp at hs
        | some k =>
          show ∃ r, (match cur.child k with
            | some next => resolveSegs rest next
            | none => Except.ok none) = Except.ok r
          match cur.child k with
          | some next => exact ih next (fun s hmem => hh s (List.mem_cons_of_mem _ hmem))
          | none => exact ⟨none, rfl⟩
      · exact ⟨none, rfl⟩
  unfold resolveInternalRef
  split
  · exact ⟨none, rfl⟩
  · exact walk _ root h

/-- Claim C9 witness: the no-throw guarantee applied to a concrete root
and pointer with well-formed segments. -/
theorem C9_witness :
    (∀ seg ∈ strSplit (strDrop "#/paths/~1foo/post/summary" 2) '/',
      (jsonPointerDecode seg).isSome) ∧
    ∃ r, resolveInternalRef
      (Json.obj [("paths", Json.obj [("/foo", Json.obj
        [("post", Json.obj [("summary", Json.str "test")])])])])
      "#/paths/~1foo/post/summary" = .ok r :=
  ⟨by decide, C9_theorem _ _ (by decide)⟩

/-- Claim C10: hashDirectoryTree is deterministic in the filesystem
enumeration order: for any digest function and any two enumerations of the
same finite path-to-content map (with duplicate-free paths), the resulting
sha256-prefixed strings are equal, because listFilesRecursive sorts the
collected paths before the stream is assembled. -/
theorem C10_theorem (digest : String → String)
    (files1 files2 : List (String × String)) (hp : files1.Perm files2)
    (hn : (files1.map Prod.fst).Nodup) :
    hashDirectoryTree digest files1 = hashDirectoryTree digest files2 := by
  unfold hashDirectoryTree listFilesRecursive
  have hperm : (files1.map Prod.fst).Perm (files2.map Prod.fst) := hp.map Prod.fst
  have hsorted :
      List.insertionSort pathLe (files1.map Prod.fst) =
        List.insertionSort pathLe (files2.map Prod.fst) := by
    have p1 := List.perm_insertionSort pathLe (files1.map Prod.fst)
    have p2 := List.perm_insertionSort pathLe (files2.map Prod.fst)
    exact List.eq_of_perm_of_sorted ((p1.trans hperm).trans p2.symm)
      (List.sorted_insertionSort pathLe _) (List.sorted_insertionSort pathLe _)
  rw [hsorted]
  have hlook : ∀ p, alookup files1 p = alookup files2 p :=
    fun p => alookup_perm hp hn p
  have : ∀ ps : List String,
      ps.map (fun p => p ++ ((alookup files1 p).getD "")) =
      ps.map (fun p => p ++ ((alookup files2 p).getD "")) := by
    intro ps
    induction ps with
    | nil => rfl
    | cons q qs ih => simp [ih, hlook q]
  rw [this]

/-- Claim C10 witness: equal hashes for one concrete reordered listing. -/
theorem C10_witness :
    List.Perm [("b.yaml", "B"), ("a.yaml", "A")] [("a.yaml", "A"), ("b.yaml", "B")] ∧
    hashDirectoryTree (fun s => s) [("b.yaml", "B"), ("a.yaml", "A")] =
      hashDirectoryTree (fun s => s) [("a.yaml", "A"), ("b.yaml", "B")] :=
  ⟨List.Perm.swap _ _ _,
   C10_theorem (fun s => s) _ _ (List.Perm.swap _ _ _) (by decide)⟩

theorem nstep_log_ne {cfg : NCfg} {a b : NSt} (h : NStep cfg a b)
    (ha : a.log ≠ []) : b.log ≠ [] := by
  cases h <;> simp_all

theorem star_log_ne {cfg : NCfg} {a b : NSt}
    (h : Relation.ReflTransGen (NStep cfg) a b) (ha : a.log ≠ []) : b.log ≠ [] := by
  induction h with
  | refl => exact ha
  | tail _ hs ih => exact nstep_log_ne hs ih

theorem setTree_self (σ : NSt) (t : Bool) : σ.setTree t (σ.tree t) = σ := by
  cases σ
  cases t <;> rfl

theorem charsStart_append_self (xs ys : List Char) :
    charsStart (xs ++ ys) xs = true := by
  induction xs with
  | nil => cases ys <;> rfl
  | cons c cs ih => simp [charsStart, ih]

theorem strStarts_append_self (x y : String) : strStarts (x ++ y) x = true := by
  cases x with
  | mk dx =>
    cases y with
    | mk dy => exact charsStart_append_self dx dy

/-- A $ref assignment of a component reference is an admissible move (a
no-op when the path does not address an object). -/
theorem setRefAt_star {cfg : NCfg} (σ : NSt) (t : Bool) (p : List String)
    (s : String) (hs : strStarts s "#/components/schemas/" = true)
    (hlog : t = false → σ.log ≠ []) :
    Relation.ReflTransGen (NStep cfg) σ (σ.setTree t (setRefAt (σ.tree t) p s)) := by
  cases σ with
  | mk L S seen log =>
    cases t with
    | true =>
      show Relation.ReflTransGen _ _ ⟨setRefAt L p s, S, seen, log⟩
      match hg : getPath p L with
      | some (.obj fs) =>
        exact Relation.ReflTransGen.single (NStep.liveRef hg hs)
      | some .null | some (.bool _) | some (.num _) | some (.str _) | some (.arr _) | none =>
        rw [show setRefAt L p s = L by unfold setRefAt; rw [hg]]
    | false =>
      show Relation.ReflTransGen _ _ ⟨L, setRefAt S p s, seen, log⟩
      match hg : getPath p S with
      | some (.obj fs) =>
        exact Relation.ReflTransGen.single (NStep.snapRef (hlog rfl) hg hs)
      | some .null | some (.bool _) | some (.num _) | some (.str _) | some (.arr _) | none =>
        rw [show setRefAt S p s = S by unfold setRefAt; rw [hg]]

theorem bindOkE {α β : Type} (a : α) (f : α → Except String β) :
    (Except.ok a >>= f) = f a := rfl

theorem seenAdd_step {cfg : NCfg} (σ : NSt) (e : Bool × List String) :
    NStep cfg σ { σ with seen := e :: σ.seen } := by
  cases σ
  exact NStep.seenAdd e

theorem logAdd_step {cfg : NCfg} (σ : NSt) (r : String) (segs : List String)
    (v : Json) (h1 : resolveRefPath σ.snap r = .ok (some segs))
    (h2 : getPath segs σ.snap = some v) :
    NStep cfg σ { σ with log := σ.log ++ [(r, v)] } := by
  cases σ
  exact NStep.logAdd h1 h2

theorem repl_step {cfg : NCfg} (σ : NSt) (t : Bool) (p : List String)
    (fs : List (String × Json)) (name : String)
    (hg : getPath p (σ.tree t) = some (.obj fs))
    (htr : truthyRef fs = false)
    (hname : alookup cfg.sigMap (canonicalStringify (.obj fs)) = some name ∨
      (alookup fs "x-semantic-type" = some (.str name) ∧
        (Json.str name).truthy = true ∧ name ∈ cfg.semNames))
    (hprot : t = true → p ∉ cfg.protPaths)
    (hlog : t = false → σ.log ≠ []) :
    NStep cfg σ
      (σ.setTree t (setPath p (σ.tree t) (refObj ("#/components/schemas/" ++ name)))) := by
  cases σ with
  | mk L S seen log =>
    cases t with
    | true => exact NStep.liveRepl hg htr hname (hprot rfl)
    | false => exact NStep.snapRepl (hlog rfl) hg htr hname

/-- The inline-dedup / semantic tail only performs admissible moves. -/
theorem dedupPhase_star {cfg : NCfg} (t : Bool) (p : List String) (σ : NSt)
    (hprot : t = true → p ∉ cfg.protPaths)
    (hlog : t = false → σ.log ≠ []) :
    Relation.ReflTransGen (NStep cfg) σ (dedupPhase cfg t p σ) := by
  unfold dedupPhase
  split
  next fs hg =>
    split
    next => exact Relation.ReflTransGen.refl
    next htr =>
      have htr' : truthyRef fs = false := by
        cases hb : truthyRef fs
        · rfl
        · exact absurd hb htr
      split
      next name hsig =>
        exact Relation.ReflTransGen.single
          (repl_step σ t p fs name hg htr' (Or.inl hsig) hprot hlog)
      next hsig =>
        split
        next tag hx =>
          split
          next hc =>
            exact Relation.ReflTransGen.single
              (repl_step σ t p fs tag hg htr' (Or.inr ⟨hx, hc.1, hc.2⟩) hprot hlog)
          next => exact Relation.ReflTransGen.refl
        next hx => exact Relation.ReflTransGen.refl
  next hg => exact Relation.ReflTransGen.refl

/-- The manual-override / signature tail only installs component refs. -/
theorem overrideOrSig_star {cfg : NCfg} (t : Bool) (p : List String)
    (r : String) (resolvedNode : Json) (σ : NSt)
    (hlog : t = false → σ.log ≠ []) :
    Relation.ReflTransGen (NStep cfg) σ (overrideOrSig cfg t p r resolvedNode σ) := by
  unfold overrideOrSig
  match alookup cfg.overrides r with
  | some name => exact setRefAt_star σ t p _ (strStarts_append_self _ name) hlog
  | none =>
    match alookup cfg.sigMap (canonicalStringify resolvedNode) with
    | some name => exact setRefAt_star σ t p _ (strStarts_append_self _ name) hlog
    | none => exact Relation.ReflTransGen.refl

theorem bindErrE {α β : Type} (e : String) (f : α → Except String β) :
    ((Except.error e : Except String α) >>= f) = .error e := rfl

/-- The path-local-$ref tail of one node performs only admissible moves,
provided the recursive walk it invokes does. -/
theorem transientPhase_star {cfg : NCfg}
    (go1 : Bool → List String → NSt → Except String NSt)
    (hgo : ∀ q σa σb, σa.log ≠ [] → go1 false q σa = .ok σb →
      Relation.ReflTransGen (NStep cfg) σa σb)
    (t : Bool) (p : List String) (σ σ' : NSt)
    (hprot : t = true → p ∉ cfg.protPaths)
    (hlog : t = false → σ.log ≠ [])
    (h : transientPhase go1 cfg t p σ = .ok σ') :
    Relation.ReflTransGen (NStep cfg) σ σ' := by
  unfold transientPhase at h
  split at h
  next fs hg =>
    split at h
    next r hr =>
      split at h
      next hs =>
        split at h
        next herr => exact absurd h (by simp)
        next hres =>
          injection h with h2
          subst h2
          exact Relation.ReflTransGen.refl
        next segs hres =>
          split at h
          next v hv =>
            split at h
            next hvc =>
              cases hrec : go1 false segs { σ with log := σ.log ++ [(r, v)] } with
              | error e =>
                rw [hrec, bindErrE] at h
                exact absurd h (by simp)
              | ok σ2 =>
                rw [hrec, bindOkE] at h
                have hlogL : ({ σ with log := σ.log ++ [(r, v)] } : NSt).log ≠ [] := by
                  simp
                have hchain1 : Relation.ReflTransGen (NStep cfg) σ σ2 :=
                  (Relation.ReflTransGen.single (logAdd_step σ r segs v hres hv)).trans
                    (hgo segs _ σ2 hlogL hrec)
                have h2log : t = false → σ2.log ≠ [] :=
                  fun _ => star_log_ne (hgo segs _ σ2 hlogL hrec) hlogL
                split at h
                next resolvedNode hres2 =>
                  split at h
                  next rfs =>
                    split at h
                    next s hs2 =>
                      split at h
                      next hstable =>
                        injection h with h2
                        subst h2
                        exact hchain1.trans (setRefAt_star σ2 t p s hstable h2log)
                      next hstable =>
                        injection h with h2
                        subst h2
                        exact hchain1.trans (overrideOrSig_star t p r _ σ2 h2log)
                    next hs2 =>
                      injection h with h2
                      subst h2
                      exact hchain1.trans (overrideOrSig_star t p r _ σ2 h2log)
                  next =>
                    injection h with h2
                    subst h2
                    exact hchain1.trans (overrideOrSig_star t p r _ σ2 h2log)
                next hres2 =>
                  injection h with h2
                  subst h2
                  exact hchain1
            next hvc =>
              injection h with h2
              subst h2
              exact Relation.ReflTransGen.refl
          next hv =>
            injection h with h2
            subst h2
            exact Relation.ReflTransGen.refl
      next hs =>
        injection h with h2
        subst h2
        exact dedupPhase_star t p σ hprot hlog
    next hr =>
      injection h with h2
      subst h2
      exact dedupPhase_star t p σ hprot hlog
  next hg =>
    injection h with h2
    subst h2
    exact Relation.ReflTransGen.refl

/-- The child recursion of one node performs only admissible moves,
provided the walk it iterates does. -/
theorem foldl_star {cfg : NCfg}
    (go : Bool → List String → NSt → Except String NSt)
    (hgo : ∀ t q σa σb, (t = false → σa.log ≠ []) → go t q σa = .ok σb →
      Relation.ReflTransGen (NStep cfg) σa σb) :
    ∀ (ks : List String) (t : Bool) (p : List String) (σ σ' : NSt),
      (t = false → σ.log ≠ []) →
      ks.foldlM (fun σ k => go t (p ++ [k]) σ) σ = .ok σ' →
      Relation.ReflTransGen (NStep cfg) σ σ' := by
  intro ks
  induction ks with
  | nil =>
    intro t p σ σ' _ h
    simp only [List.foldlM_nil] at h
    injection h with h2
    subst h2
    exact Relation.ReflTransGen.refl
  | cons k ks ih =>
    intro t p σ σ' hlog h
    simp only [List.foldlM_cons] at h
    cases hstep : go t (p ++ [k]) σ with
    | error e =>
      rw [hstep, bindErrE] at h
      exact absurd h (by simp)
    | ok σa =>
      rw [hstep, bindOkE] at h
      exact (hgo t (p ++ [k]) σ σa hlog hstep).trans
        (ih t p σa σ'
          (fun ht => star_log_ne (hgo t (p ++ [k]) σ σa hlog hstep) (hlog ht)) h)

/-- Master lemma: every successful safeNormalize walk is a chain of
admissible moves. -/
theorem goNode_star {cfg : NCfg} :
    ∀ (fuel : Nat) (t : Bool) (p : List String) (σ σ' : NSt),
      (t = false → σ.log ≠ []) →
      goNode fuel cfg t p σ = .ok σ' →
      Relation.ReflTransGen (NStep cfg) σ σ' := by
  intro fuel
  induction fuel with
  | zero =>
    intro t p σ σ' _ h
    exact absurd h (by simp [goNode])
  | succ f ih =>
    intro t p σ σ' hlog h
    simp only [goNode] at h
    split at h
    next hg =>
      injection h with h2
      subst h2
      exact Relation.ReflTransGen.refl
    next node hg =>
      split at h
      next hsc =>
        injection h with h2
        subst h2
        exact Relation.ReflTransGen.refl
      next hsc =>
        split at h
        next hseen =>
          injection h with h2
          subst h2
          exact Relation.ReflTransGen.refl
        next hseen =>
          split at h
          next hlike =>
            injection h with h2
            subst h2
            exact Relation.ReflTransGen.head (seenAdd_step σ (t, p))
              (setRefAt_star { σ with seen := (t, p) :: σ.seen } t p
                "#/components/schemas/LikeFilter" (by decide) (fun ht => hlog ht))
          next hlike =>
            split at h
            next hpr =>
              exact Relation.ReflTransGen.head (seenAdd_step σ (t, p))
                (foldl_star (goNode f cfg) (fun t q σa σb hg1 he => ih t q σa σb hg1 he)
                  (childKeys node) t p { σ with seen := (t, p) :: σ.seen } σ'
                  (fun ht => hlog ht) h)
            next hpr =>
              cases node with
              | arr xs =>
                exact Relation.ReflTransGen.head (seenAdd_step σ (t, p))
                  (foldl_star (goNode f cfg) (fun t q σa σb hg1 he => ih t q σa σb hg1 he)
                    (childKeys (.arr xs)) t p { σ with seen := (t, p) :: σ.seen } σ'
                    (fun ht => hlog ht) h)
              | obj fs2 =>
                cases hf : (childKeys (Json.obj fs2)).foldlM
                    (fun σ k => goNode f cfg t (p ++ [k]) σ)
                    { σ with seen := (t, p) :: σ.seen } with
                | error e =>
                  rw [hf, bindErrE] at h
                  exact absurd h (by simp)
                | ok σ2 =>
                  rw [hf, bindOkE] at h
                  have hchain : Relation.ReflTransGen (NStep cfg)
                      ({ σ with seen := (t, p) :: σ.seen } : NSt) σ2 :=
                    foldl_star (goNode f cfg) (fun t q σa σb hg1 he => ih t q σa σb hg1 he)
                      (childKeys (.obj fs2)) t p { σ with seen := (t, p) :: σ.seen } σ2
                      (fun ht => hlog ht) hf
                  have h2log : t = false → σ2.log ≠ [] :=
                    fun ht => star_log_ne hchain (hlog ht)
                  refine Relation.ReflTransGen.head (seenAdd_step σ (t, p))
                    (hchain.trans (transientPhase_star (goNode f cfg)
                      (fun q σa σb ha he => ih false q σa σb (fun _ => ha) he)
                      t p σ2 σ' (fun ht => ?_) h2log h))
                  exact fun hmem => hpr ⟨ht, hmem⟩
              | null =>
                injection h with h2
                subst h2
                exact Relation.ReflTransGen.single (seenAdd_step σ (t, p))
              | bool b =>
                injection h with h2
                subst h2
                exact Relation.ReflTransGen.single (seenAdd_step σ (t, p))
              | num n =>
                injection h with h2
                subst h2
                exact Relation.ReflTransGen.single (seenAdd_step σ (t, p))
              | str s =>
                injection h with h2
                subst h2
                exact Relation.ReflTransGen.single (seenAdd_step σ (t, p))

/-- Lifting the master lemma to the whole normalization pass. -/
theorem normalizePhase_star (fuel : Nat) (overrides : List (String × String))
    (doc : Json) (σ' : NSt) (h : normalizePhase fuel overrides doc = .ok σ') :
    Relation.ReflTransGen (NStep (mkNCfg doc overrides))
      ⟨doc, doc, [], []⟩ σ' := by
  unfold normalizePhase at h
  exact goNode_star fuel true [] _ σ' (fun ht => nomatch ht) h

theorem alookup_aset_ne {α : Type} :
    ∀ (fs : List (String × α)) (k : String) (v : α) (k' : String), k ≠ k' →
      alookup (aset fs k v) k' = alookup fs k' := by
  intro fs
  induction fs with
  | nil =>
    intro k v k' hk
    simp [aset, alookup, hk]
  | cons kv fs ih =>
    intro k v k' hk
    cases kv with
    | mk k0 w =>
      by_cases h0 : k0 = k
      · subst h0
        simp [aset, alookup, hk]
      · simp [aset, alookup, h0, ih _ v _ hk]

theorem child_setPath_paths (doc v : Json) (k : String) (hk : "paths" ≠ k) :
    (setPath ["paths"] doc v).child k = doc.child k := by
  cases doc with
  | obj fs =>
    simp only [setPath]
    split
    next w h =>
      show alookup (aset fs "paths" (setPath [] w v)) k = alookup fs k
      exact alookup_aset_ne fs "paths" _ k hk
    next h => rfl
  | arr xs =>
    simp only [setPath]
    rw [show parseArrIndex "paths" = none from rfl]
  | null => rfl
  | bool b => rfl
  | num n => rfl
  | str s => rfl

theorem getPath_components_setPath_paths (doc v : Json) (p : List String) :
    getPath ("components" :: p) (setPath ["paths"] doc v) =
      getPath ("components" :: p) doc := by
  simp only [getPath]
  rw [child_setPath_paths doc v "components" (by decide)]

/-- freshSignatureDedup never touches the components subtree. -/
theorem freshSignatureDedup_components (doc : Json) (p : List String) :
    getPath ("components" :: p) (freshSignatureDedup doc).1 =
      getPath ("components" :: p) doc := by
  unfold freshSignatureDedup
  split
  next pv hq =>
    split
    next hc => exact getPath_components_setPath_paths doc _ p
    next hc => rfl
  next hq => rfl

theorem alookup_dedupWalkFields (em sm : List (String × String)) :
    ∀ (fs : List (String × Json)) (k : String),
      alookup (dedupWalkFields em sm fs).1 k =
        (alookup fs k).map (fun v => (dedupWalk em sm v).1) := by
  intro fs
  induction fs with
  | nil => intro k; rfl
  | cons kv fs ih =>
    intro k
    cases kv with
    | mk k0 v0 =>
      by_cases h0 : k0 = k
      · subst h0
        simp [dedupWalkFields, alookup]
      · simp [dedupWalkFields, alookup, h0, ih]

theorem dedupWalkFields_keys (em sm : List (String × String)) :
    ∀ (fs : List (String × Json)),
      (dedupWalkFields em sm fs).1.map Prod.fst = fs.map Prod.fst := by
  intro fs
  induction fs with
  | nil => rfl
  | cons kv fs ih =>
    cases kv with
    | mk k0 v0 => simp [dedupWalkFields, ih]

/-- The dedup walk never replaces a node carrying a truthy string $ref: the
node survives as an object with the same keys and the same $ref value. -/
theorem dedupWalk_ref_preserved (em sm : List (String × String))
    (fs : List (String × Json)) (s : String)
    (h : alookup fs "$ref" = some (.str s)) (hs : (Json.str s).truthy = true) :
    ∃ fs', dedupWalk em sm (.obj fs) = (.obj fs', (dedupWalkFields em sm fs).2) ∧
      alookup fs' "$ref" = some (.str s) ∧
      fs'.map Prod.fst = fs.map Prod.fst := by
  have hl : alookup (dedupWalkFields em sm fs).1 "$ref" = some (.str s) := by
    rw [alookup_dedupWalkFields, h]
    rfl
  have htr : truthyRef (dedupWalkFields em sm fs).1 = true := by
    unfold truthyRef
    rw [hl]
    exact hs
  refine ⟨(dedupWalkFields em sm fs).1, ?_, hl, dedupWalkFields_keys em sm fs⟩
  unfold dedupWalk
  rw [if_pos htr]

theorem rStage0 : ensureComponents rDoc = rDoc1 := rfl

theorem rStage1 : normalizePhase 15 (mergeOverrides []) rDoc1 =
    .ok { live := rLive, snap := rSnap, seen := rSeen, log := rLog } := rfl

theorem rStage2 : rewriteInternalRefs rLive = rRw := rfl

theorem rStage3 : promoteDoc rRw = (rPro, 0) := rfl

/-- The regression document round-trips: both stable refs survive and both
schemas are retained. -/
theorem rRun : bundleCore 15 rOpts rDoc = .ok
    { spec := rDd1
      stats := { pathCount := 2, schemaCount := 2, promotedInlineSchemaCount := 0,
                 dereferencedPathLocalRefCount := 0, freshDedupCount := 0,
                 pathLocalLikeRefCount := 0 }
      writes := [] } := by
  unfold bundleCore prevalidate
  simp only [rOpts]
  rw [rStage0, rStage1]
  simp only [bindOkE]
  rw [rStage2, rStage3]
  rfl

theorem badStage0 : ensureComponents badDoc = badDoc1 := rfl

theorem badStage1 : normalizePhase 15 (mergeOverrides []) badDoc1 =
    .ok { live := badLive, snap := badSnap, seen := badSeen, log := badLog } := rfl

theorem badStage2 : rewriteInternalRefs badLive = badRw := rfl

theorem badStage3 : promoteDoc badRw = (badPro, 0) := rfl

theorem badRun : bundleCore 15 rOpts badDoc = .ok
    { spec := badDd1
      stats := { pathCount := 2, schemaCount := 3, promotedInlineSchemaCount := 0,
                 dereferencedPathLocalRefCount := 0, freshDedupCount := 0,
                 pathLocalLikeRefCount := 0 }
      writes := [] } := by
  unfold bundleCore prevalidate
  simp only [rOpts]
  rw [badStage0, badStage1]
  simp only [bindOkE]
  rw [badStage2, badStage3]
  rfl

theorem c2Stage0 : ensureComponents c2doc = c2Doc1 := rfl

theorem c2Stage1 : normalizePhase 15 (mergeOverrides []) c2Doc1 =
    .ok { live := c2Live, snap := c2Snap, seen := c2Seen, log := c2Log } := rfl

theorem c2Stage2 : rewriteInternalRefs c2Live = c2Rw := rfl

theorem c2Stage3 : promoteDoc c2Rw = (c2Pro, 0) := rfl

theorem c2Run : bundleCore 15 rOpts c2doc = .ok
    { spec := c2Dd1
      stats := { pathCount := 1, schemaCount := 0, promotedInlineSchemaCount := 0,
                 dereferencedPathLocalRefCount := 0, freshDedupCount := 0,
                 pathLocalLikeRefCount := 0 }
      writes := [] } := by
  unfold bundleCore prevalidate
  simp only [rOpts]
  rw [c2Stage0, c2Stage1]
  simp only [bindOkE]
  rw [c2Stage2, c2Stage3]
  rfl

theorem c3Stage0 : ensureComponents c3doc = c3Doc1 := rfl

theorem c3Stage1 : normalizePhase 15 (mergeOverrides []) c3Doc1 =
    .ok { live := c3Live, snap := c3Snap, seen := c3Seen, log := c3Log } := rfl

theorem c4Stage0 : ensureComponents c4doc = c4Doc1 := rfl

theorem c4Stage1 : normalizePhase 15 (mergeOverrides [("#/paths/t", "O")]) c4Doc1 =
    .ok { live := c4Live, snap := c4Snap, seen := c4Seen, log := c4Log } := rfl

theorem c4Stage2 : rewriteInternalRefs c4Live = c4Rw := rfl

theorem c4Stage3 : promoteDoc c4Rw = (c4Pro, 0) := rfl

theorem c4Run : bundleCore 15 c4opts c4doc = .ok
    { spec := c4Dd1
      stats := { pathCount := 2, schemaCount := 1, promotedInlineSchemaCount := 0,
                 dereferencedPathLocalRefCount := 0, freshDedupCount := 0,
                 pathLocalLikeRefCount := 0 }
      writes := [] } := by
  unfold bundleCore prevalidate
  simp only [c4opts]
  rw [c4Stage0, c4Stage1]
  simp only [bindOkE]
  rw [c4Stage2, c4Stage3]
  rfl

theorem c5Stage0 : ensureComponents c5doc = c5Doc1 := rfl

theorem c5Stage1 : normalizePhase 15 (mergeOverrides []) c5Doc1 =
    .ok { live := c5Live, snap := c5Snap, seen := c5Seen, log := c5Log } := rfl

theorem c5Stage2 : rewriteInternalRefs c5Live = c5Rw := rfl

theorem c5Stage3 : promoteDoc c5Rw = (c5Pro, 0) := rfl

theorem c5Pre : prevalidate 15 rOpts c5doc = .ok (c5Dd1, 0, 0, 0) := by
  unfold prevalidate
  simp only [rOpts]
  rw [c5Stage0, c5Stage1]
  simp only [bindOkE]
  rw [c5Stage2, c5Stage3]
  rfl

theorem c5PreA : prevalidate 15 c5opts c5doc = .ok (c5Dd1, 0, 0, 0) := by
  unfold prevalidate
  simp only [c5opts]
  rw [c5Stage0, c5Stage1]
  simp only [bindOkE]
  rw [c5Stage2, c5Stage3]
  rfl

/-- Case split of the dedup walk on one object node: either the node
survives as an object with the same keys, or it is replaced by a
reference object naming a single matching component, which only happens
on $ref-free schema-shaped nodes. -/
theorem dedupWalk_obj_cases (em sm : List (String × String))
    (fs : List (String × Json)) :
    (∃ fs', (dedupWalk em sm (.obj fs)).1 = .obj fs' ∧
       fs'.map Prod.fst = fs.map Prod.fst) ∨
    (∃ name, (dedupWalk em sm (.obj fs)).1 =
        refObj ("#/components/schemas/" ++ name) ∧
       truthyRef (dedupWalkFields em sm fs).1 = false ∧
       isSchemaLikeFields (dedupWalkFields em sm fs).1 = true ∧
       (alookup em (canonicalStringify (.obj (dedupWalkFields em sm fs).1)) = some name ∨
        alookup sm (structuralStringify (.obj (dedupWalkFields em sm fs).1)) = some name)) := by
  unfold dedupWalk
  cases htr : truthyRef (dedupWalkFields em sm fs).1 with
  | true =>
    left
    refine ⟨(dedupWalkFields em sm fs).1, ?_, dedupWalkFields_keys em sm fs⟩
    rw [if_pos htr]
  | false =>
    rw [if_neg (by simp [htr])]
    cases hsl : isSchemaLikeFields (dedupWalkFields em sm fs).1 with
    | false =>
      rw [if_neg (by simp [hsl])]
      left
      exact ⟨(dedupWalkFields em sm fs).1, rfl, dedupWalkFields_keys em sm fs⟩
    | true =>
      rw [if_pos (show (true : Bool) = true from rfl)]
      cases he : alookup em (canonicalStringify (.obj (dedupWalkFields em sm fs).1)) with
      | some name =>
        right
        exact ⟨name, rfl, rfl, rfl, Or.inl rfl⟩
      | none =>
        cases hs2 : alookup sm (structuralStringify (.obj (dedupWalkFields em sm fs).1)) with
        | some name =>
          right
          exact ⟨name, rfl, rfl, rfl, Or.inr rfl⟩
        | none =>
          left
          exact ⟨(dedupWalkFields em sm fs).1, rfl, dedupWalkFields_keys em sm fs⟩

/-- A successful path-resolution yields the value that resolveInternalRef
itself would return, and that value sits at the returned decoded path. -/
theorem resolveSegsPath_val :
    ∀ (segs : List String) (cur : Json) (ds : List String),
      resolveSegsPath segs cur = .ok (some ds) →
      ∃ v, getPath ds cur = some v ∧ resolveSegs segs cur = .ok (some v) := by
  intro segs
  induction segs with
  | nil =>
    intro cur ds h
    injection h with h1
    injection h1 with h2
    subst h2
    exact ⟨cur, rfl, rfl⟩
  | cons seg rest ih =>
    intro cur ds h
    unfold resolveSegsPath at h
    unfold resolveSegs
    split at h
    next hc =>
      rw [if_pos hc]
      split at h
      next hd => exact absurd h (by simp)
      next k hd =>
        split at h
        next next hch =>
          split at h
          next tail htail =>
            injection h with h1
            injection h1 with h2
            subst h2
            obtain ⟨v, hv1, hv2⟩ := ih next tail htail
            refine ⟨v, ?_, ?_⟩
            · show (match cur.child k with
                    | some w => getPath tail w
                    | none => none) = some v
              rw [hch]
              exact hv1
            · exact hv2
          next hother =>
            exact absurd h (hother ds)
        next hch =>
          exact absurd h (by simp)
    next hc =>
      exact absurd h (by simp)

theorem resolveRefPath_val (root : Json) (r : String) (segs : List String)
    (v : Json) (h1 : resolveRefPath root r = .ok (some segs))
    (h2 : getPath segs root = some v) :
    resolveInternalRef root r = .ok (some v) := by
  unfold resolveRefPath at h1
  unfold resolveInternalRef
  split at h1
  next hns => exact absurd h1 (by simp)
  next hns =>
    rw [if_neg hns]
    obtain ⟨w, hw1, hw2⟩ := resolveSegsPath_val _ root segs h1
    rw [hw1] at h2
    injection h2 with h3
    subst h3
    exact hw2

/-- One admissible move preserves the two resolution-log invariants: while
the log is empty the snapshot is pristine, and the first logged resolution
carries the value the pristine document holds at that ref. -/
theorem nstep_first_log {cfg : NCfg} {doc : Json} {a b : NSt} (h : NStep cfg a b)
    (ha1 : a.log = [] → a.snap = doc)
    (ha2 : ∀ r v rest, a.log = (r, v) :: rest →
      resolveInternalRef doc r = .ok (some v)) :
    (b.log = [] → b.snap = doc) ∧
    (∀ r v rest, b.log = (r, v) :: rest →
      resolveInternalRef doc r = .ok (some v)) := by
  cases h with
  | liveRef hg hs => exact ⟨ha1, ha2⟩
  | snapRef hne hg hs =>
    exact ⟨fun hl => absurd hl hne, ha2⟩
  | liveRepl hg htr hname hp => exact ⟨ha1, ha2⟩
  | snapRepl hne hg htr hname =>
    exact ⟨fun hl => absurd hl hne, ha2⟩
  | seenAdd e => exact ⟨ha1, ha2⟩
  | logAdd h1 h2 =>
    rename_i L S seen log r' segs v'
    constructor
    · intro hl
      exact absurd hl (by simp)
    · intro r v rest hb
      cases hlog : log with
      | nil =>
        subst hlog
        simp only [List.nil_append] at hb
        injection hb with hb1 hb2
        injection hb1 with hbr hbv
        subst hbr
        subst hbv
        have hS : S = doc := ha1 rfl
        subst hS
        exact resolveRefPath_val _ _ _ _ h1 h2
      | cons p0 rest0 =>
        subst hlog
        simp only [List.cons_append] at hb
        injection hb with hb1 hb2
        subst hb1
        exact ha2 r v rest0 rfl

theorem star_first_log {cfg : NCfg} {doc : Json} {a b : NSt}
    (h : Relation.ReflTransGen (NStep cfg) a b)
    (ha1 : a.log = [] → a.snap = doc)
    (ha2 : ∀ r v rest, a.log = (r, v) :: rest →
      resolveInternalRef doc r = .ok (some v)) :
    (b.log = [] → b.snap = doc) ∧
    (∀ r v rest, b.log = (r, v) :: rest →
      resolveInternalRef doc r = .ok (some v)) := by
  induction h with
  | refl => exact ⟨ha1, ha2⟩
  | tail hst hstep ih => exact nstep_first_log hstep ih.1 ih.2

/-- Claim C1: for documents with two identically-structured, differently
named component schemas referenced by two operations, a full bundle run
keeps both schemas and both stable refs (amended).  The normalization walk
only ever performs admissible moves: installing component-collection refs
at object nodes, or wholesale-replacing nodes whose $ref member is not
truthy (never a protected live component schema value) by a single
matching named reference; the convergent dedup never touches the
components subtree and never replaces a node with a truthy string $ref,
and its replacements install exactly one matching component name at
$ref-free schema-shaped nodes; the concrete regression document
round-trips unchanged with both refs and both schemas intact.  The
original claim's blanket "each operation's $ref still names its
originally-intended schema" fails for an enclosing $ref-free wrapper node
that structurally matches a third named schema (see the counterexample
theorem). -/
theorem C1_theorem :
    (∀ (fuel : Nat) (ov : List (String × String)) (doc : Json) (σ' : NSt),
       normalizePhase fuel ov doc = .ok σ' →
       Relation.ReflTransGen (NStep (mkNCfg doc ov)) ⟨doc, doc, [], []⟩ σ') ∧
    (∀ (doc : Json) (p : List String),
       getPath ("components" :: p) (freshSignatureDedup doc).1 =
         getPath ("components" :: p) doc) ∧
    (∀ (em sm : List (String × String)) (fs : List (String × Json)) (s : String),
       alookup fs "$ref" = some (.str s) → (Json.str s).truthy = true →
       ∃ fs', dedupWalk em sm (.obj fs) = (.obj fs', (dedupWalkFields em sm fs).2) ∧
         alookup fs' "$ref" = some (.str s) ∧
         fs'.map Prod.fst = fs.map Prod.fst) ∧
    (∀ (em sm : List (String × String)) (fs : List (String × Json)),
       (∃ fs', (dedupWalk em sm (.obj fs)).1 = .obj fs' ∧
          fs'.map Prod.fst = fs.map Prod.fst) ∨
       (∃ name, (dedupWalk em sm (.obj fs)).1 =
           refObj ("#/components/schemas/" ++ name) ∧
          truthyRef (dedupWalkFields em sm fs).1 = false ∧
          isSchemaLikeFields (dedupWalkFields em sm fs).1 = true ∧
          (alookup em (canonicalStringify (.obj (dedupWalkFields em sm fs).1)) =
             some name ∨
           alookup sm (structuralStringify (.obj (dedupWalkFields em sm fs).1)) =
             some name))) ∧
    bundleCore 15 rOpts rDoc = .ok
      { spec := rDd1
        stats := { pathCount := 2, schemaCount := 2, promotedInlineSchemaCount := 0,
                   dereferencedPathLocalRefCount := 0, freshDedupCount := 0,
                   pathLocalLikeRefCount := 0 }
        writes := [] } ∧
    getPath ["paths", "c", "schema"] rDd1 = some (refObj "#/components/schemas/A") ∧
    getPath ["paths", "d", "schema"] rDd1 = some (refObj "#/components/schemas/B") ∧
    getPath ["components", "schemas", "A"] rDd1 = some shp ∧
    getPath ["components", "schemas", "B"] rDd1 = some shp :=
  ⟨fun fuel ov doc σ' h => normalizePhase_star fuel ov doc σ' h,
   fun doc p => freshSignatureDedup_components doc p,
   fun em sm fs s h hs => dedupWalk_ref_preserved em sm fs s h hs,
   fun em sm fs => dedupWalk_obj_cases em sm fs,
   rRun, rfl, rfl, rfl, rfl⟩

/-- Claim C1 counterexample: badDoc has schemas A and B with different
names and identical structure, two operations referencing them by stable
refs, and a third schema C whose structure equals the $ref-free operation
wrapper nodes.  The full run replaces the wrapper holding the A-ref
wholesale with a ref to C, so the operation's original $ref to A does not
survive, refuting the claim's universal preservation statement. -/
theorem C1_counterexample :
    getPath ["components", "schemas", "A"] badDoc = some shp ∧
    getPath ["components", "schemas", "B"] badDoc = some shp ∧
    getPath ["paths", "c", "w", "s"] badDoc =
      some (refObj "#/components/schemas/A") ∧
    getPath ["paths", "d", "w", "s"] badDoc =
      some (refObj "#/components/schemas/B") ∧
    bundleCore 15 rOpts badDoc = .ok
      { spec := badDd1
        stats := { pathCount := 2, schemaCount := 3, promotedInlineSchemaCount := 0,
                   dereferencedPathLocalRefCount := 0, freshDedupCount := 0,
                   pathLocalLikeRefCount := 0 }
        writes := [] } ∧
    getPath ["paths", "c", "w", "s"] badDd1 = none ∧
    getPath ["paths", "c", "w"] badDd1 = some (refObj "#/components/schemas/C") :=
  ⟨rfl, rfl, rfl, rfl, badRun, rfl, rfl⟩

/-- Claim C1 witness: the admissible-moves characterization instantiated
on the concrete regression normalization, and the $ref-preservation of the
dedup walk instantiated on a concrete reference node. -/
theorem C1_witness :
    Relation.ReflTransGen (NStep (mkNCfg rDoc1 (mergeOverrides [])))
      ⟨rDoc1, rDoc1, [], []⟩
      { live := rLive, snap := rSnap, seen := rSeen, log := rLog } ∧
    (∃ fs', dedupWalk [] [] (.obj [("$ref", .str "#/components/schemas/A")]) =
        (.obj fs',
          (dedupWalkFields [] [] [("$ref", .str "#/components/schemas/A")]).2) ∧
      alookup fs' "$ref" = some (.str "#/components/schemas/A") ∧
      fs'.map Prod.fst =
        [("$ref", Json.str "#/components/schemas/A")].map Prod.fst) :=
  ⟨C1_theorem.1 15 (mergeOverrides []) rDoc1 _ rStage1,
   C1_theorem.2.2.1 [] [] [("$ref", .str "#/components/schemas/A")]
     "#/components/schemas/A" rfl rfl⟩

/-- Claim C2: in non-tolerant mode no transient pointer survives a full
run (amended).  The only surviving-pointer class the run actually rules
out is the path-local $like shape counted by the validator: every
successful non-tolerant run ends with zero path-local $like refs in the
final document.  Other '#/paths/...' pointers can survive a successful
non-tolerant run (see the counterexample theorem). -/
theorem C2_theorem (fuel : Nat) (opts : BundleOpts) (doc : Json)
    (r : BundleRes) (hall : opts.allowPathLocalLikeRefs = false)
    (h : bundleCore fuel opts doc = .ok r) :
    countLikeRefs r.spec = 0 := by
  unfold bundleCore at h
  cases hp : prevalidate fuel opts doc with
  | error e =>
    rw [hp, bindErrE] at h
    exact absurd h (by simp)
  | ok q =>
    rw [hp, bindOkE] at h
    unfold bundlePost at h
    simp only [] at h
    split at h
    next hcond => exact absurd h (by simp)
    next hcond =>
      injection h with h2
      subst h2
      show countLikeRefs q.1 = 0
      by_cases hn : countLikeRefs q.1 > 0
      · exact absurd ⟨hn, by simp [hall]⟩ hcond
      · omega

/-- Claim C2 counterexample: a non-tolerant run completes successfully
while a '#/paths/nowhere' pointer (a transient pointer that is not of the
$like shape) survives in the final document. -/
theorem C2_counterexample :
    rOpts.allowPathLocalLikeRefs = false ∧
    bundleCore 15 rOpts c2doc = .ok
      { spec := c2Dd1
        stats := { pathCount := 1, schemaCount := 0, promotedInlineSchemaCount := 0,
                   dereferencedPathLocalRefCount := 0, freshDedupCount := 0,
                   pathLocalLikeRefCount := 0 }
        writes := [] } ∧
    getPath ["paths", "p", "s"] c2Dd1 = some (refObj "#/paths/nowhere") ∧
    strStarts "#/paths/nowhere" "#/paths/" = true ∧
    strStarts "#/paths/nowhere" "#/components/schemas/" = false :=
  ⟨rfl, c2Run, rfl, rfl, rfl⟩

/-- Claim C2 witness: the zero-$like-count guarantee instantiated on the
concrete non-tolerant run. -/
theorem C2_witness : countLikeRefs c2Dd1 = 0 :=
  C2_theorem 15 rOpts c2doc
    { spec := c2Dd1
      stats := { pathCount := 1, schemaCount := 0, promotedInlineSchemaCount := 0,
                 dereferencedPathLocalRefCount := 0, freshDedupCount := 0,
                 pathLocalLikeRefCount := 0 }
      writes := [] } rfl c2Run

/-- Claim C3: transient pointers resolve against an immutable
pre-normalization snapshot (amended).  The walk resolves against a
snapshot object that starts as the pre-normalization tree but is itself
normalized in place as resolutions recurse into it, so only the first
resolution of a pass is guaranteed to see the pristine value: whenever a
normalization run logs its resolutions, the first logged resolution
returns exactly the value the pre-normalization document holds at that
ref; later resolutions may observe already-rewritten values (see the
counterexample theorem). -/
theorem C3_theorem (fuel : Nat) (ov : List (String × String)) (doc : Json)
    (σ' : NSt) (r : String) (v : Json) (rest : List (String × Json))
    (h : normalizePhase fuel ov doc = .ok σ')
    (hl : σ'.log = (r, v) :: rest) :
    resolveInternalRef doc r = .ok (some v) := by
  have hstar := normalizePhase_star fuel ov doc σ' h
  have hinv := star_first_log hstar (fun _ => rfl)
    (fun r v rest hcontra => nomatch hcontra)
  exact hinv.2 r v rest hl

/-- Claim C3 counterexample: with two transient pointers into the same
subtree, resolving the first normalizes the shared target subtree in the
snapshot itself, and the second resolution returns the mutated value
(a fresh ref to B), not the pristine value ({type: string}) that the
pre-normalization document holds at that ref. -/
theorem C3_counterexample :
    normalizePhase 15 (mergeOverrides []) c3Doc1 =
      .ok { live := c3Live, snap := c3Snap, seen := c3Seen, log := c3Log } ∧
    c3Log = [("#/paths/t", .obj [("a", .obj [("type", .str "string")])]),
             ("#/paths/t/a", refObj "#/components/schemas/B")] ∧
    resolveInternalRef c3Doc1 "#/paths/t/a" =
      .ok (some (.obj [("type", .str "string")])) ∧
    refObj "#/components/schemas/B" ≠ .obj [("type", .str "string")] ∧
    getPath ["paths", "t", "a"] c3Doc1 = some (.obj [("type", .str "string")]) ∧
    getPath ["paths", "t", "a"] c3Snap = some (refObj "#/components/schemas/B") :=
  ⟨c3Stage1, rfl, rfl, by simp [refObj], rfl, rfl⟩

/-- Claim C3 witness: the first-resolution guarantee instantiated on the
concrete two-pointer run: the first logged resolution of the c3 document
is exactly the pristine subtree. -/
theorem C3_witness :
    resolveInternalRef c3Doc1 "#/paths/t" =
      .ok (some (.obj [("a", .obj [("type", .str "string")])])) :=
  C3_theorem 15 (mergeOverrides []) c3Doc1
    { live := c3Live, snap := c3Snap, seen := c3Seen, log := c3Log }
    "#/paths/t" (.obj [("a", .obj [("type", .str "string")])])
    [("#/paths/t/a", refObj "#/components/schemas/B")] c3Stage1 rfl

/-- Claim C5: surviving path-local $like refs are fatal exactly when the
caller did not allow them.  For every run whose transformation stages
complete with document d4: if the validator counts n > 0 path-local $like
refs and allowPathLocalLikeRefs is not set, bundle fails with the message
reporting n, and no result (hence no output write, which happens strictly
after validation) is produced; with the flag set the run completes, n is
recorded in stats.pathLocalLikeRefCount, and the requested outputs are
written. -/
theorem C5_theorem (fuel : Nat) (opts : BundleOpts) (doc d4 : Json)
    (promoted dc ddc : Nat)
    (h : prevalidate fuel opts doc = .ok (d4, promoted, dc, ddc)) :
    (countLikeRefs d4 > 0 → opts.allowPathLocalLikeRefs = false →
      bundleCore fuel opts doc = .error (likeErrorMessage (countLikeRefs d4))) ∧
    (opts.allowPathLocalLikeRefs = true →
      ∃ r : BundleRes, bundleCore fuel opts doc = .ok r ∧
        r.stats.pathLocalLikeRefCount = countLikeRefs d4 ∧
        r.spec = d4 ∧
        r.writes = opts.outputSpec.toList ++ opts.outputMetadata.toList) := by
  have hb : bundleCore fuel opts doc = bundlePost opts d4 promoted dc ddc := by
    unfold bundleCore
    rw [h, bindOkE]
  constructor
  · intro hn hal
    rw [hb]
    simp only [bundlePost]
    rw [if_pos ⟨hn, by simp [hal]⟩]
  · intro hal
    rw [hb]
    simp only [bundlePost]
    rw [if_neg (by simp [hal])]
    exact ⟨_, rfl, rfl, rfl, rfl⟩

/-- Claim C5 witness: on the concrete surviving-$like document, one
path-local $like ref survives; the strict run fails with the message
reporting 1 and the tolerant run completes with the count in the
statistics and both outputs written. -/
theorem C5_witness :
    countLikeRefs c5Dd1 > 0 ∧
    bundleCore 15 rOpts c5doc = .error (likeErrorMessage (countLikeRefs c5Dd1)) ∧
    (∃ r : BundleRes, bundleCore 15 c5opts c5doc = .ok r ∧
       r.stats.pathLocalLikeRefCount = countLikeRefs c5Dd1 ∧
       r.spec = c5Dd1 ∧
       r.writes = ["a.json", "b.json"]) :=
  ⟨by decide,
   (C5_theorem 15 rOpts c5doc c5Dd1 0 0 0 c5Pre).1 (by decide) rfl,
   (C5_theorem 15 c5opts c5doc c5Dd1 0 0 0 c5PreA).2 rfl⟩

theorem overrideOrSig_dec (cfg : NCfg) (t : Bool) (p : List String)
    (r : String) (rn : Json) (σ : NSt) :
    overrideOrSig cfg t p r rn σ =
      (match overrideSigDecision cfg r rn with
       | some s => σ.setTree t (setRefAt (σ.tree t) p s)
       | none => σ) := by
  unfold overrideOrSig overrideSigDecision
  cases alookup cfg.overrides r with
  | some name => rfl
  | none =>
    cases alookup cfg.sigMap (canonicalStringify rn) with
    | some name => rfl
    | none => rfl

/-- Claim C4: the transient rewrite decision follows the priority order
$like short-circuit, adoption of a stable target reference, manual
override, signature match — with first match winning (amended): the
stages after the short-circuit are decided against the resolved target
as it stands in the snapshot after the recursive normalization of the
target (not the pre-normalization value the specification's snapshot
story implies).  Part one: a $like-shaped pointer with a truthy
LikeFilter component is rewritten directly, before and instead of any
children processing, resolution, override or signature consultation.
Part two: for a resolving container target, the tail of one visited node
equals exactly the decision function codeDecision applied to the
post-recursion target. -/
theorem C4_theorem :
    (∀ (fuel : Nat) (cfg : NCfg) (t : Bool) (p : List String) (σ : NSt)
       (fs : List (String × Json)) (r : String),
       getPath p (σ.tree t) = some (.obj fs) →
       alookup fs "$ref" = some (.str r) →
       likeRefTest cfg r = true →
       (t, p) ∉ σ.seen →
       goNode (fuel + 1) cfg t p σ =
         .ok (({ σ with seen := (t, p) :: σ.seen } : NSt).setTree t
           (setRefAt (({ σ with seen := (t, p) :: σ.seen } : NSt).tree t) p
             "#/components/schemas/LikeFilter"))) ∧
    (∀ (go1 : Bool → List String → NSt → Except String NSt) (cfg : NCfg)
       (t : Bool) (p : List String) (σ σ2 : NSt)
       (fs : List (String × Json)) (r : String) (segs : List String) (v : Json),
       getPath p (σ.tree t) = some (.obj fs) →
       alookup fs "$ref" = some (.str r) →
       strStarts r "#/paths/" = true →
       resolveRefPath σ.snap r = .ok (some segs) →
       getPath segs σ.snap = some v →
       v.isContainer = true →
       go1 false segs { σ with log := σ.log ++ [(r, v)] } = .ok σ2 →
       transientPhase go1 cfg t p σ =
         .ok (match getPath segs σ2.snap with
              | some rn =>
                match codeDecision cfg r rn with
                | some s => σ2.setTree t (setRefAt (σ2.tree t) p s)
                | none => σ2
              | none => σ2)) := by
  constructor
  · intro fuel cfg t p σ fs r hg hr hlike hseen
    simp only [goNode]
    rw [hg]
    simp [hr, hlike, hseen, Json.isContainer]
  · intro go1 cfg t p σ σ2 fs r segs v hg hr hs hres hv hvc hrec
    simp only [transientPhase, hg, hr]
    rw [if_pos hs]
    simp only [hres, hv]
    rw [if_pos hvc]
    rw [hrec, bindOkE]
    split
    next rn hrn =>
      rw [show (Except.ok
          (match some rn with
           | some rn =>
             match codeDecision cfg r rn with
             | some s => σ2.setTree t (setRefAt (σ2.tree t) p s)
             | none => σ2
           | none => σ2) : Except String NSt) =
          .ok (match codeDecision cfg r rn with
               | some s => σ2.setTree t (setRefAt (σ2.tree t) p s)
               | none => σ2) from rfl]
      split
      next rfs2 =>
        split
        next s2 halo =>
          by_cases hst : strStarts s2 "#/components/schemas/" = true
          · rw [if_pos hst]
            simp only [codeDecision, halo]
            rw [if_pos hst]
          · rw [if_neg hst]
            rw [overrideOrSig_dec]
            simp only [codeDecision, halo]
            rw [if_neg hst]
        next halo0 =>
          rw [overrideOrSig_dec]
          cases halo : alookup rfs2 "$ref" with
          | none => simp only [codeDecision, halo]
          | some w =>
            cases w with
            | null => simp only [codeDecision, halo]
            | bool b => simp only [codeDecision, halo]
            | num n => simp only [codeDecision, halo]
            | str s2 => exact absurd halo (by intro hcon; exact halo0 s2 hcon)
            | arr xs => simp only [codeDecision, halo]
            | obj fs3 => simp only [codeDecision, halo]
      next hobj =>
        rw [overrideOrSig_dec]
        cases rn with
        | null => simp only [codeDecision]
        | bool b => simp only [codeDecision]
        | num n => simp only [codeDecision]
        | str s2 => simp only [codeDecision]
        | arr xs => simp only [codeDecision]
        | obj fs3 => exact absurd rfl (hobj fs3)
    next hrn => rfl

/-- Claim C4 counterexample: the c4 document carries a manual override
("#/paths/t" to O).  Per the claim, the resolved target (the value the
pre-normalization document holds, {type: string}) is not a stable
reference, so the override — the next stage — must win and the pointer
must be rewritten to O.  The run instead rewrites the pointer to S: the
recursive normalization of the target replaces the target itself with a
stable ref to S inside the snapshot, and the adoption stage then reads
that post-recursion value, so adoption preempts the override. -/
theorem C4_counterexample :
    resolveInternalRef c4Doc1 "#/paths/t" =
      .ok (some (.obj [("type", .str "string")])) ∧
    specPriorityDecision (mkNCfg c4Doc1 (mergeOverrides [("#/paths/t", "O")]))
        "#/paths/t" (some (.obj [("type", .str "string")])) =
      some "#/components/schemas/O" ∧
    bundleCore 15 c4opts c4doc = .ok
      { spec := c4Dd1
        stats := { pathCount := 2, schemaCount := 1, promotedInlineSchemaCount := 0,
                   dereferencedPathLocalRefCount := 0, freshDedupCount := 0,
                   pathLocalLikeRefCount := 0 }
        writes := [] } ∧
    getPath ["paths", "p"] c4Dd1 = some (refObj "#/components/schemas/S") ∧
    ("#/components/schemas/S" : String) ≠ "#/components/schemas/O" :=
  ⟨rfl, rfl, c4Run, rfl, by decide⟩

/-- Claim C4 witness: the $like short-circuit instantiated on a concrete
$like pointer with a truthy LikeFilter component, and the decision
characterization instantiated on the c4 pointer with an identity
recursion, where the pristine target makes the override win. -/
theorem C4_witness :
    goNode 1 (mkNCfg likeDoc []) true ["paths", "p", "f"]
        ⟨likeDoc, likeDoc, [], []⟩ =
      .ok (({ live := likeDoc, snap := likeDoc,
              seen := [(true, ["paths", "p", "f"])], log := [] } : NSt).setTree true
        (setRefAt likeDoc ["paths", "p", "f"] "#/components/schemas/LikeFilter")) ∧
    transientPhase (fun _ _ σ => .ok σ)
        (mkNCfg c4Doc1 (mergeOverrides [("#/paths/t", "O")]))
        true ["paths", "p"] ⟨c4Doc1, c4Doc1, [], []⟩ =
      .ok ⟨setRefAt c4Doc1 ["paths", "p"] "#/components/schemas/O", c4Doc1, [],
           [("#/paths/t", .obj [("type", .str "string")])]⟩ :=
  ⟨C4_theorem.1 0 (mkNCfg likeDoc []) true ["paths", "p", "f"]
     ⟨likeDoc, likeDoc, [], []⟩ [("$ref", .str "#/paths/x/properties/$like")]
     "#/paths/x/properties/$like" rfl rfl rfl (by simp),
   C4_theorem.2 (fun _ _ σ => .ok σ)
     (mkNCfg c4Doc1 (mergeOverrides [("#/paths/t", "O")])) true ["paths", "p"]
     ⟨c4Doc1, c4Doc1, [], []⟩
     ⟨c4Doc1, c4Doc1, [], [("#/paths/t", .obj [("type", .str "string")])]⟩
     [("$ref", .str "#/paths/t")] "#/paths/t" ["paths", "t"]
     (.obj [("type", .str "string")]) rfl rfl rfl rfl rfl rfl rfl⟩

theorem getPath_append : ∀ (p q : List String) (t : Json),
    getPath (p ++ q) t = (getPath p t).bind (fun w => getPath q w) := by
  intro p
  induction p with
  | nil => intro q t; rfl
  | cons s p ih =>
    intro q t
    show (match t.child s with
          | some w => getPath (p ++ q) w
          | none => none) =
      ((match t.child s with
        | some w => getPath p w
        | none => none).bind (fun w => getPath q w))
    cases t.child s with
    | some w => exact ih q w
    | none => rfl

theorem nest_getPath : ∀ k, getPath (List.replicate k "x") (nest k) = some c6S := by
  intro k
  induction k with
  | zero => rfl
  | succ k ih => exact ih

theorem nest_child (k : Nat) :
    getPath (List.replicate (k + 1) "x") (nest k) = some refNode := by
  rw [List.replicate_succ', getPath_append, nest_getPath]
  rfl

theorem nest_setPath : ∀ k, setPath (List.replicate (k + 1) "x") (nest k) c6S = nest (k + 1) := by
  intro k
  induction k with
  | zero => rfl
  | succ k ih =>
    show Json.obj [("x", setPath (List.replicate (k + 1) "x") (nest k) c6S)] = nest (k + 2)
    rw [ih]
    rfl

theorem tree_getPath (k : Nat) (q : List String) :
    getPath ("paths" :: "a" :: q) (c6tree k) = getPath q (nest k) := rfl

theorem tree_setPath (k : Nat) (q : List String) (v : Json) :
    setPath ("paths" :: "a" :: q) (c6tree k) v =
      .obj [("paths", .obj [("a", setPath q (nest k) v)]),
            ("components", .obj [("schemas", .obj [])])] := rfl

theorem c6p_succ (k : Nat) : c6p k ++ ["x"] = c6p (k + 1) := by
  show ("paths" :: "a" :: List.replicate k "x") ++ ["x"] =
    "paths" :: "a" :: List.replicate (k + 1) "x"
  simp [List.replicate_succ']

theorem c6p_length (k : Nat) : (c6p k).length = 2 + k := by
  simp [c6p]
  omega

theorem c6seen_short : ∀ j q, q ∈ c6seen j → q.length < 2 + (j + 1) := by
  intro j
  induction j with
  | zero =>
    intro q hq
    simp only [c6seen, List.mem_cons] at hq
    rcases hq with rfl | rfl | rfl | rfl | rfl | h
    · simp
    · simp
    · simp
    · simp
    · simp
    · exact absurd h (List.not_mem_nil q)
  | succ j ih =>
    intro q hq
    simp only [c6seen, List.mem_cons] at hq
    rcases hq with rfl | hq
    · rw [c6p_length]
      omega
    · have := ih q hq
      omega

theorem c6p_notin (j : Nat) : c6p (j + 1) ∉ c6seen j := by
  intro h
  have := c6seen_short j _ h
  rw [c6p_length] at this
  omega

/-- One machine step on an unvisited object node. -/
theorem derefMachine_obj_step (post pre : Json) (f : Nat) (tree : Json)
    (p : List String) (rest seen : List (List String)) (count : Nat)
    (fs : List (String × Json)) (hgp : getPath p tree = some (.obj fs))
    (hnm : p ∉ seen) (tree' : Json) (count' : Nat)
    (pushed : List (List String))
    (hch : derefChildren post pre false p (fs.map Prod.fst) tree count [] =
      .ok (tree', count', pushed)) :
    derefMachine post pre (f + 1) tree (p :: rest) seen count =
      derefMachine post pre f tree' (pushed.reverse ++ rest) (p :: seen) count' := by
  simp only [derefMachine, hgp]
  rw [if_neg (show ¬ (¬ Json.isContainer (.obj fs) = true) by
    simp [Json.isContainer])]
  rw [if_neg hnm]
  show (do
    let r ← derefChildren post pre false p
      (childKeys (.obj fs)) tree count []
    derefMachine post pre f r.1 (r.2.2.reverse ++ rest) (p :: seen) r.2.1) = _
  rw [show childKeys (.obj fs) = fs.map Prod.fst from rfl, hch, bindOkE]

/-- One child sweep of a cycle stage: the cyclic ref at the next x level
is replaced by a fresh copy of the resolved operation, deepening the
nesting by one and pushing the fresh child path. -/
theorem c6children (j : Nat) :
    derefChildren c6doc c6doc false (c6p (j + 1)) ["x"] (c6tree (j + 1))
        (j + 1) [] =
      .ok (c6tree (j + 2), j + 2, [c6p (j + 2)]) := by
  have hv : getPath (c6p (j + 1) ++ ["x"]) (c6tree (j + 1)) = some refNode := by
    rw [c6p_succ]
    show getPath ("paths" :: "a" :: List.replicate (j + 2) "x") (c6tree (j + 1)) =
      some refNode
    rw [tree_getPath]
    exact nest_child (j + 1)
  have hsp : setPath (c6p (j + 1) ++ ["x"]) (c6tree (j + 1)) c6S = c6tree (j + 2) := by
    rw [c6p_succ]
    show setPath ("paths" :: "a" :: List.replicate (j + 2) "x") (c6tree (j + 1)) c6S =
      c6tree (j + 2)
    rw [tree_setPath, nest_setPath]
    rfl
  simp only [derefChildren, hv]
  rw [if_neg (show ¬ (¬ false = true ∧ ¬ Json.isContainer refNode = true) by
    simp [refNode, Json.isContainer])]
  show derefChildren c6doc c6doc false (c6p (j + 1)) []
      (setPath (c6p (j + 1) ++ ["x"]) (c6tree (j + 1)) c6S) ((j + 1) + 1)
      ([] ++ [c6p (j + 1) ++ ["x"]]) =
    .ok (c6tree (j + 2), j + 2, [c6p (j + 2)])
  rw [hsp]
  show Except.ok (c6tree (j + 2), j + 2, [] ++ [c6p (j + 1) ++ ["x"]]) =
    .ok (c6tree (j + 2), j + 2, [c6p (j + 2)])
  rw [show ([] ++ [c6p (j + 1) ++ ["x"]] : List (List String)) =
    [c6p (j + 1) ++ ["x"]] from rfl, c6p_succ]

/-- One cycle stage of the machine: process the current deepest x path,
replace its cyclic ref child, push the fresh deeper path. -/
theorem c6_step (j f : Nat) :
    derefMachine c6doc c6doc (f + 1) (c6tree (j + 1)) [c6p (j + 1)]
        (c6seen j) (j + 1) =
      derefMachine c6doc c6doc f (c6tree (j + 2)) [c6p (j + 2)]
        (c6seen (j + 1)) (j + 2) := by
  have hgp : getPath (c6p (j + 1)) (c6tree (j + 1)) =
      some (.obj [("x", refNode)]) := by
    show getPath ("paths" :: "a" :: List.replicate (j + 1) "x") (c6tree (j + 1)) =
      some (.obj [("x", refNode)])
    rw [tree_getPath]
    exact nest_getPath (j + 1)
  have hms := derefMachine_obj_step c6doc c6doc f (c6tree (j + 1)) (c6p (j + 1))
    [] (c6seen j) (j + 1) [("x", refNode)] hgp (c6p_notin j)
    (c6tree (j + 2)) (j + 2) [c6p (j + 2)] (c6children j)
  simpa using hms

/-- From any cycle stage the machine only ever exhausts its fuel. -/
theorem c6_div : ∀ (f j : Nat),
    derefMachine c6doc c6doc f (c6tree (j + 1)) [c6p (j + 1)] (c6seen j) (j + 1) =
      .error "fuel" := by
  intro f
  induction f with
  | zero => intro j; rfl
  | succ f ih =>
    intro j
    rw [c6_step j f]
    exact ih (j + 1)

/-- The five concrete prefix steps from the document root reach the first
cycle stage. -/
theorem c6_prefix (f : Nat) :
    derefMachine c6doc c6doc (f + 5) c6doc [[]] [] 0 =
      derefMachine c6doc c6doc f (c6tree 1) [c6p 1] (c6seen 0) 1 := rfl

/-- A single dereference pass over the cyclic document exhausts any fuel:
the pass never terminates. -/
theorem c6pass (fuel : Nat) :
    derefPass fuel c6doc c6doc c6doc = .error "fuel" := by
  rcases Nat.lt_or_ge fuel 5 with h | h
  · interval_cases fuel <;> rfl
  · obtain ⟨f, rfl⟩ := Nat.exists_eq_add_of_le h
    show derefMachine c6doc c6doc (5 + f) c6doc [[]] [] 0 = .error "fuel"
    rw [Nat.add_comm, c6_prefix f]
    exact c6_div f 0

/-- Claim C6: the dereference loop runs at most 20 passes and always
terminates.  The pass budget only bounds the number of passes: one single
pass is a while loop whose visited set never catches the fresh copies the
pass itself inserts, so on a document with a cyclic path-local ref (an
operation whose descendant $ref points back at the operation) the very
first pass loops forever, inserting ever deeper copies; the machine
exhausts every fuel bound, and so does the surrounding pass loop. -/
theorem C6_theorem :
    getPath ["paths", "a", "x"] c6doc = some refNode ∧
    refNode = .obj [("$ref", .str "#/paths/a")] ∧
    resolveInternalRef c6doc "#/paths/a" = .ok (some c6S) ∧
    (∀ fuel : Nat, derefPass fuel c6doc c6doc c6doc = .error "fuel") ∧
    (∀ fuel : Nat, derefLoop fuel c6doc c6doc 20 c6doc 0 0 = .error "fuel") := by
  refine ⟨rfl, rfl, rfl, fun fuel => c6pass fuel, fun fuel => ?_⟩
  rw [show (20 : Nat) = 19 + 1 from rfl]
  simp only [derefLoop]
  rw [c6pass fuel, bindErrE]
